import Mathlib

/-!
# turn-bench: a verification development of `main.go`

The program launches `clients` sessions, each of which opens a local UDP
socket, obtains a relayed transport from a TURN client, punches a hole, and
then sends batches of a fixed random payload until a wall-clock ceiling.

Everything outside `main.go` (the operating system's sockets, the clock, the
random source, the TURN client library) is an oracle: a value that says what
each external call answers.  The Go code is translated as functions that
consume these oracles and produce the sequence of externally visible actions
(`Event`s) together with the way the function ended (`Outcome`).

Go `int` flags and `time.Duration` values are integers (`Int`); the program
does no arithmetic on them that could overflow.  A loop whose end depends on
the environment is observed for a bounded number of iterations (`fuel`); an
observation that stops before the loop ends has the outcome `running`.
-/

namespace TurnBench

/-! ## Data model -/

/-- Go `error` values that are not `nil`. -/
abbrev Err := String

/-- Printed form of a `net.Addr`. -/
abbrev Addr := String

/-- Go `[]byte`. -/
abbrev Bytes := List UInt8

/-- The three sockets a session handles: `conn` (local socket handed to the
TURN client), `relayConn` (relayed transport), `pingerConn` (probe socket). -/
inductive Sock where
  | conn
  | relayConn
  | pingerConn
  deriving DecidableEq, Repr

/-- The fields of `turn.ClientConfig` that `main.go` fills from the flags. -/
structure ClientConfig where
  STUNServerAddr : String
  TURNServerAddr : String
  Username : String
  Password : String
  Realm : String
  deriving DecidableEq, Repr

/-- Externally visible actions, in program order of one goroutine. -/
inductive Event where
  /-- Call `net.ListenPacket("udp4", "0.0.0.0:0")` whose result is bound to socket `s`. -/
  | listenPacket (s : Sock) (err : Option Err)
  /-- Call `turn.NewClient(cfg)`. -/
  | newClient (cfg : ClientConfig) (err : Option Err)
  /-- Call `client.Listen()`. -/
  | clientListen (err : Option Err)
  /-- Call `client.Allocate()`. -/
  | allocate (err : Option Err)
  /-- Call `log.Printf("relayed-address=%s", ...)`. -/
  | logRelayedAddress (a : Addr)
  /-- Call `wg.Add(1)`. -/
  | wgAdd
  /-- Call `wg.Done()`. -/
  | wgDone
  /-- Call `client.SendBindingRequest()`. -/
  | sendBindingRequest (err : Option Err)
  /-- Call `s.WriteTo(p, dst)`. -/
  | writeTo (s : Sock) (p : Bytes) (dst : Addr) (err : Option Err)
  /-- Call `s.ReadFrom(buf)` returning `n`, the sender and an error. -/
  | readFrom (s : Sock) (n : Nat) (sender : Addr) (err : Option Err)
  /-- Statement `go func() { ... }()` starting the read loop on socket `s`. -/
  | goReadLoop (s : Sock)
  /-- Call `time.Sleep(d)`, `d` in nanoseconds. -/
  | sleep (d : Int)
  /-- Call `time.Now()`. -/
  | timeNow
  /-- Call `time.Since(now)` answering `d` nanoseconds. -/
  | timeSince (d : Int)
  /-- Call `rand.Read(blk)` on a block of `size` bytes. -/
  | randRead (size : Nat)
  /-- Call `s.Close()`. -/
  | close (s : Sock) (err : Option Err)
  /-- Call `client.Close()`. -/
  | clientClose
  deriving DecidableEq, Repr

/-- How a function body ended.  `running` means the observation stopped
(fuel ran out) before the body ended. -/
inductive Outcome where
  | returned (err : Option Err)
  | panicked (e : Err)
  | running
  deriving DecidableEq, Repr

/-- One observed execution: the actions and the way it ended. -/
structure Run where
  trace : List Event
  outcome : Outcome
  deriving DecidableEq, Repr

/-- What one `ReadFrom` call delivers: the datagram, its sender, an error. -/
structure ReadResult where
  data : Bytes
  sender : Addr
  err : Option Err
  deriving DecidableEq, Repr

/-- A `net.PacketConn` as the program sees it.  `writeTo k` is the error of
the `k`-th `WriteTo` the calling goroutine issues on the handle, `readFrom k`
what its `k`-th `ReadFrom` delivers, `close` the error `Close` returns. -/
structure PacketConn where
  localAddr : Addr
  writeTo : Nat → Option Err
  readFrom : Nat → ReadResult
  close : Option Err

/-- A `*turn.Client` as the program sees it. -/
structure Client where
  listen : Option Err
  allocate : Except Err PacketConn
  sendBindingRequest : Except Err Addr

/-- The environment of one session goroutine.  `listenPacket k` answers the
`k`-th `net.ListenPacket` call, `randRead n` is what `rand.Read` stores in a
block of `n` bytes, `since k` is what the `k`-th `time.Since(now)` answers in
nanoseconds. -/
structure World where
  listenPacket : Nat → Except Err PacketConn
  newClient : ClientConfig → Except Err Client
  randRead : Nat → Bytes
  since : Nat → Int

/-- Parsed command-line flags. -/
structure Config where
  host : String
  port : Int
  user : String
  password : String
  realm : String
  clients : Int
  packets : Int
  duration : Int
  deriving DecidableEq, Repr

/-- Constant `time.Millisecond` in nanoseconds. -/
def millisecond : Int := 1000000

/-- Constant `time.Minute` in nanoseconds. -/
def minute : Int := 60000000000

/-- The bytes of `"Hello"`. -/
def hello : Bytes := [72, 101, 108, 108, 111]

/-! ## `GenRandomBytes` -/

/-- Function `GenRandomBytes`: `make([]byte, size)` followed by `rand.Read(blk)`, whose
error is dropped; bytes `rand.Read` did not store stay zero. -/
def GenRandomBytes (randRead : Nat → Bytes) (size : Nat) : Bytes :=
  let blk : Bytes := List.replicate size 0
  let got := (randRead size).take size
  got ++ blk.drop got.length

/-! ## Deferred calls -/

/-- A call registered with `defer`. -/
inductive Deferred where
  /-- Statement `defer func() { if closeErr := s.Close(); closeErr != nil { panic(closeErr) } }()`. -/
  | closeSock (s : Sock) (err : Option Err)
  /-- Statement `defer client.Close()`. -/
  | clientClose
  deriving DecidableEq, Repr

/-- Runs the deferred calls, most recent first, when the body ended with
`o`.  A deferred close that fails panics; the calls deferred earlier still
run, and the latest panic is the one the function ends with. -/
def unwind : List Deferred → Outcome → List Event × Outcome
  | [], o => ([], o)
  | Deferred.clientClose :: ds, o =>
    let r := unwind ds o
    (Event.clientClose :: r.1, r.2)
  | Deferred.closeSock s err :: ds, o =>
    let o1 := match err with
      | some e => Outcome.panicked e
      | none => o
    let r := unwind ds o1
    (Event.close s err :: r.1, r.2)

/-- The function ends: `trace` so far, then the deferred calls. -/
def finish (trace : List Event) (defers : List Deferred) (o : Outcome) : Run :=
  let r := unwind defers o
  ⟨trace ++ r.1, r.2⟩

/-! ## `doPingTest` -/

/-- Result of the inner `for i := 0; i < packets; i++` loop: the sends it
issued, the number of payload sends issued so far, the error it stopped on. -/
structure BatchResult where
  trace : List Event
  sent : Nat
  err : Option Err
  deriving DecidableEq, Repr

/-- The inner loop of `doPingTest` with `n` iterations left; `k` payload
sends were issued before.  A failing `WriteTo` returns at once. -/
def sendBatch (pingerConn : PacketConn) (msg : Bytes) (target : Addr) :
    Nat → Nat → BatchResult
  | 0, k => ⟨[], k, none⟩
  | n + 1, k =>
    match pingerConn.writeTo k with
    | some e => ⟨[Event.writeTo Sock.pingerConn msg target (some e)], k + 1, some e⟩
    | none =>
      let r := sendBatch pingerConn msg target n (k + 1)
      ⟨Event.writeTo Sock.pingerConn msg target none :: r.trace, r.sent, r.err⟩

/-- The outer `for { ... }` loop of `doPingTest`, observed for at most `fuel`
batches; `b` batches and `k` payload sends were completed before.  The
result is the value handed to `return` (`returned`), or `running`. -/
def trafficLoop (w : World) (pingerConn relayConn : PacketConn) (packets : Int)
    (msg : Bytes) : Nat → Nat → Nat → Run
  | 0, _, _ => ⟨[], Outcome.running⟩
  | fuel + 1, b, k =>
    let r := sendBatch pingerConn msg relayConn.localAddr packets.toNat k
    match r.err with
    | some e => ⟨r.trace, Outcome.returned (some e)⟩
    | none =>
      let d := w.since b
      let evs := r.trace ++ [Event.sleep millisecond, Event.timeSince d]
      if d > minute * 10 then ⟨evs, Outcome.returned none⟩
      else
        let rest := trafficLoop w pingerConn relayConn packets msg fuel (b + 1) r.sent
        ⟨evs ++ rest.trace, rest.outcome⟩

/-- The actions of `doPingTest` between opening the probe socket and the
traffic loop, once the second hole-punching write succeeded. -/
def punchTrace (mappedAddr : Addr) (e1 : Option Err) : List Event :=
  [Event.sendBindingRequest none,
   Event.listenPacket Sock.pingerConn none,
   Event.writeTo Sock.relayConn hello mappedAddr e1,
   Event.writeTo Sock.relayConn hello mappedAddr none,
   Event.goReadLoop Sock.pingerConn,
   Event.goReadLoop Sock.relayConn,
   Event.sleep (500 * millisecond),
   Event.timeNow,
   Event.randRead 1000]

/-- Function `doPingTest(client, relayConn, packets)`; the traffic loop is observed for
at most `fuel` batches.  When the loop is still running nothing is deferred
yet to run. -/
def doPingTest (client : Client) (relayConn : PacketConn) (packets : Int)
    (w : World) (fuel : Nat) : Run :=
  match client.sendBindingRequest with
  | Except.error e => ⟨[Event.sendBindingRequest (some e)], Outcome.returned (some e)⟩
  | Except.ok mappedAddr =>
    match w.listenPacket 1 with
    | Except.error e =>
      ⟨[Event.sendBindingRequest none, Event.listenPacket Sock.pingerConn (some e)],
        Outcome.returned (some e)⟩
    | Except.ok pingerConn =>
      let defers := [Deferred.closeSock Sock.pingerConn pingerConn.close]
      match relayConn.writeTo 1 with
      | some e =>
        finish [Event.sendBindingRequest none,
                Event.listenPacket Sock.pingerConn none,
                Event.writeTo Sock.relayConn hello mappedAddr (relayConn.writeTo 0),
                Event.writeTo Sock.relayConn hello mappedAddr (some e)]
          defers (Outcome.returned (some e))
      | none =>
        let msg := GenRandomBytes w.randRead 1000
        let loop := trafficLoop w pingerConn relayConn packets msg fuel 0 0
        match loop.outcome with
        | Outcome.running =>
          ⟨punchTrace mappedAddr (relayConn.writeTo 0) ++ loop.trace, Outcome.running⟩
        | o => finish (punchTrace mappedAddr (relayConn.writeTo 0) ++ loop.trace) defers o

/-! ## The session goroutine of `main` -/

/-- Call `fmt.Sprintf("%s:%d", host, port)`. -/
def turnServerAddr (host : String) (port : Int) : String :=
  host ++ ":" ++ toString port

/-- The `turn.ClientConfig` the session builds from the flags. -/
def clientConfig (cfg : Config) : ClientConfig :=
  { STUNServerAddr := turnServerAddr cfg.host cfg.port
    TURNServerAddr := turnServerAddr cfg.host cfg.port
    Username := cfg.user
    Password := cfg.password
    Realm := cfg.realm }

/-- The body of `go func(i int) { ... }(i)` in `main`. -/
def session (cfg : Config) (w : World) (fuel : Nat) : Run :=
  match w.listenPacket 0 with
  | Except.error e => ⟨[Event.listenPacket Sock.conn (some e)], Outcome.panicked e⟩
  | Except.ok conn =>
    let t1 := [Event.listenPacket Sock.conn none]
    let d1 := [Deferred.closeSock Sock.conn conn.close]
    match w.newClient (clientConfig cfg) with
    | Except.error e =>
      finish (t1 ++ [Event.newClient (clientConfig cfg) (some e)]) d1 (Outcome.panicked e)
    | Except.ok client =>
      let t2 := t1 ++ [Event.newClient (clientConfig cfg) none]
      let d2 := Deferred.clientClose :: d1
      match client.listen with
      | some e => finish (t2 ++ [Event.clientListen (some e)]) d2 (Outcome.panicked e)
      | none =>
        let t3 := t2 ++ [Event.clientListen none]
        match client.allocate with
        | Except.error e => finish (t3 ++ [Event.allocate (some e)]) d2 (Outcome.panicked e)
        | Except.ok relayConn =>
          let d3 := Deferred.closeSock Sock.relayConn relayConn.close :: d2
          let t4 := t3 ++ [Event.allocate none, Event.logRelayedAddress relayConn.localAddr,
                          Event.wgAdd]
          let ping := doPingTest client relayConn cfg.packets w fuel
          match ping.outcome with
          | Outcome.running => ⟨t4 ++ ping.trace, Outcome.running⟩
          | Outcome.panicked e => finish (t4 ++ ping.trace) d3 (Outcome.panicked e)
          | Outcome.returned (some e) =>
            finish (t4 ++ ping.trace ++ [Event.wgDone]) d3 (Outcome.panicked e)
          | Outcome.returned none =>
            finish (t4 ++ ping.trace ++ [Event.wgDone]) d3 (Outcome.returned none)

/-! ## The read loop on `relayConn` -/

/-- One `relayConn.ReadFrom(buf)`: the datagram is copied to the front of
`buf`, cut to the length of `buf`; the rest of `buf` keeps what it held.
Returns `n` and the new contents of `buf`. -/
def readInto (r : ReadResult) (buf : Bytes) : Nat × Bytes :=
  let n := min r.data.length buf.length
  (n, r.data.take n ++ buf.drop n)

/-- The `for { ... }` loop of the goroutine that reads `relayConn`, observed
for at most `fuel` iterations, `i` iterations done before.  An iteration
that continues has issued one `ReadFrom` and one `WriteTo`, so `i` is also
the number of both calls issued before.  `break` ends the goroutine. -/
def relayReadLoop (relayConn : PacketConn) : Nat → Nat → Bytes → Run
  | 0, _, _ => ⟨[], Outcome.running⟩
  | fuel + 1, i, buf =>
    let r := relayConn.readFrom i
    let nb := readInto r buf
    let ev := Event.readFrom Sock.relayConn nb.1 r.sender r.err
    match r.err with
    | some _ => ⟨[ev], Outcome.returned none⟩
    | none =>
      let wr := Event.writeTo Sock.relayConn (nb.2.take nb.1) r.sender (relayConn.writeTo i)
      match relayConn.writeTo i with
      | some _ => ⟨[ev, wr], Outcome.returned none⟩
      | none =>
        let rest := relayReadLoop relayConn fuel (i + 1) nb.2
        ⟨ev :: wr :: rest.trace, rest.outcome⟩

/-- The goroutine started at `go func() { buf := make([]byte, 1600); for ... }()`
on `relayConn`. -/
def relayReader (relayConn : PacketConn) (fuel : Nat) : Run :=
  relayReadLoop relayConn fuel 0 (List.replicate 1600 0)

/-! ## `main` up to the launch of the sessions -/

/-- Go `len(s)` of a string: its number of bytes. -/
def len (s : String) : Nat := s.utf8ByteSize

/-- What `main` has done when it reaches `wg.Wait()`, or how it exited
before. -/
inductive Startup where
  /-- Exit through `log.Fatalf(msg)`. -/
  | fatal (msg : String)
  /-- The line `main` logged and the arguments `i` of the `go func(i int)`
  statements it executed, in order. -/
  | launched (logLine : String) (sessions : List Nat)
  deriving DecidableEq, Repr

/-- The line `main` prints before the launch loop. -/
def runLine (cfg : Config) : String :=
  "Run clients " ++ toString cfg.clients ++ "  duration " ++ toString cfg.duration ++
    "   " ++ toString cfg.packets ++ "  packets per client per millisecond\n"

/-- Function `main` from the flag checks to the end of the
`for i := 0; i < *clients; i++` loop. -/
def main (cfg : Config) : Startup :=
  if len cfg.host = 0 then Startup.fatal "'host' is required"
  else if len cfg.user = 0 then Startup.fatal "'user' is required"
  else if len cfg.password = 0 then Startup.fatal "'password' is required"
  else Startup.launched (runLine cfg) (List.range cfg.clients.toNat)

/-- Number of sessions `main` launched. -/
def Startup.sessionCount : Startup → Nat
  | Startup.fatal _ => 0
  | Startup.launched _ l => l.length

/-! ## Interleaving of `main` and the session goroutines -/

/-- Where the `main` goroutine stands. -/
inductive MainPc where
  /-- Exited through `log.Fatalf`. -/
  | exited
  /-- In the launch loop, the listed sessions still to launch. -/
  | launching (rest : List Nat)
  /-- At `wg.Wait()`. -/
  | waiting
  /-- Past `wg.Wait()`: "Bench Done" is logged and `main` returns. -/
  | returned
  deriving DecidableEq, Repr

/-- A launched session goroutine: the actions it has executed, those it
still has to execute, and how its body ends after them. -/
structure Thread where
  executed : List Event
  pending : List Event
  ending : Outcome
  deriving DecidableEq, Repr

/-- The whole process: the `sync.WaitGroup` counter, `main`, the launched
sessions, and whether an unrecovered panic has ended the process. -/
structure Proc where
  counter : Int
  mainPc : MainPc
  threads : List Thread
  crashed : Bool
  deriving DecidableEq, Repr

/-- The process when `main` has parsed the flags. -/
def Proc.init (cfg : Config) : Proc :=
  match main cfg with
  | Startup.fatal _ => ⟨0, MainPc.exited, [], false⟩
  | Startup.launched _ l => ⟨0, MainPc.launching l, [], false⟩

/-- One step of `main`: launch the next session, or move to `wg.Wait()`, or
pass `wg.Wait()`, which is possible only while the counter is zero. -/
def Proc.stepMain (cfg : Config) (worlds : Nat → World) (fuel : Nat) (p : Proc) :
    Option Proc :=
  match p.mainPc with
  | MainPc.exited => none
  | MainPc.returned => none
  | MainPc.launching [] => some { p with mainPc := MainPc.waiting }
  | MainPc.launching (i :: rest) =>
    let r := session cfg (worlds i) fuel
    some { p with mainPc := MainPc.launching rest,
                  threads := p.threads ++ [⟨[], r.trace, r.outcome⟩] }
  | MainPc.waiting =>
    if p.counter = 0 then some { p with mainPc := MainPc.returned } else none

/-- Effect of one action on the `sync.WaitGroup` counter. -/
def counterAfter (c : Int) : Event → Int
  | Event.wgAdd => c + 1
  | Event.wgDone => c - 1
  | _ => c

/-- One step of session `i`: its next action; when none is left and its
body ends in a panic, the process ends. -/
def Proc.stepSession (i : Nat) (p : Proc) : Option Proc :=
  match p.threads.get? i with
  | none => none
  | some t =>
    match t.pending with
    | e :: rest =>
      some { p with counter := counterAfter p.counter e,
                    threads := p.threads.set i ⟨t.executed ++ [e], rest, t.ending⟩ }
    | [] =>
      match t.ending with
      | Outcome.panicked _ => some { p with crashed := true }
      | _ => none

/-- One step of the process by `main` (`none`) or by session `i` (`some i`).
No goroutine steps once the process has ended: after an unrecovered panic,
after `log.Fatalf`, or after `main` returned. -/
def Proc.step (cfg : Config) (worlds : Nat → World) (fuel : Nat) (p : Proc)
    (who : Option Nat) : Option Proc :=
  if p.crashed then none
  else if p.mainPc = MainPc.returned then none
  else
    match who with
    | none => p.stepMain cfg worlds fuel
    | some i => p.stepSession i

/-- The process after the goroutines stepped in the order `schedule`;
`none` when some listed step is not possible. -/
def Proc.run (cfg : Config) (worlds : Nat → World) (fuel : Nat) :
    List (Option Nat) → Proc → Option Proc
  | [], p => some p
  | who :: rest, p =>
    match p.step cfg worlds fuel who with
    | none => none
    | some q => Proc.run cfg worlds fuel rest q

/-- Session `i` has executed `wg.Done()`. -/
def Proc.signaled (p : Proc) (i : Nat) : Bool :=
  match p.threads.get? i with
  | none => false
  | some t => decide (Event.wgDone ∈ t.executed)

/-! ## Observations on traces -/

/-- Payload send: a `WriteTo` on the probe socket. -/
def isPayloadSend : Event → Bool
  | Event.writeTo Sock.pingerConn _ _ _ => true
  | _ => false

/-- Failed payload send. -/
def isFailedSend : Event → Bool
  | Event.writeTo Sock.pingerConn _ _ (some _) => true
  | _ => false

/-- A `WriteTo` on the relayed transport. -/
def isRelayWrite : Event → Bool
  | Event.writeTo Sock.relayConn _ _ _ => true
  | _ => false

/-- The action opens socket `s`: a successful `net.ListenPacket` bound to
`s`, or a successful `client.Allocate()` for the relayed transport. -/
def opensSock (s : Sock) : Event → Bool
  | Event.listenPacket s1 none => decide (s1 = s)
  | Event.allocate none => decide (s = Sock.relayConn)
  | _ => false

/-- The action is `s.Close()`. -/
def closesSock (s : Sock) : Event → Bool
  | Event.close s1 _ => decide (s1 = s)
  | _ => false

/-- Number of completed batches: each is followed by one
`time.Sleep(time.Millisecond)`. -/
def batches (t : List Event) : Nat := t.count (Event.sleep millisecond)

/-- The payload send: `pingerConn.WriteTo(msg, target)` ending with `err`. -/
abbrev sendEv (msg : Bytes) (target : Addr) (err : Option Err) : Event :=
  Event.writeTo Sock.pingerConn msg target err

/-- Actions that `doPingTest` can issue. -/
def inPingTest : Event → Bool
  | Event.sendBindingRequest _ => true
  | Event.listenPacket Sock.pingerConn _ => true
  | Event.writeTo Sock.relayConn _ _ _ => true
  | Event.writeTo Sock.pingerConn _ _ _ => true
  | Event.goReadLoop _ => true
  | Event.sleep _ => true
  | Event.timeNow => true
  | Event.timeSince _ => true
  | Event.randRead _ => true
  | Event.close Sock.pingerConn _ => true
  | _ => false

/-- The actions of a session up to and including `wg.Add(1)`. -/
abbrev sessionHead (cfg : Config) (relayConn : PacketConn) : List Event :=
  [Event.listenPacket Sock.conn none, Event.newClient (clientConfig cfg) none,
   Event.clientListen none, Event.allocate none,
   Event.logRelayedAddress relayConn.localAddr, Event.wgAdd]

/-- The deferred calls of a session that got its relayed transport. -/
abbrev sessionTail (conn relayConn : PacketConn) : List Event :=
  [Event.close Sock.relayConn relayConn.close, Event.clientClose,
   Event.close Sock.conn conn.close]

/-- Iteration `j` of the read loop continues: its read and its write succeed. -/
abbrev roundOk (relayConn : PacketConn) (j : Nat) : Prop :=
  (relayConn.readFrom j).err = none ∧ relayConn.writeTo j = none

/-- The thread record of a session that was launched and has not stepped. -/
abbrev freshThread (cfg : Config) (worlds : Nat → World) (fuel : Nat) (i : Nat) : Thread :=
  ⟨[], (session cfg (worlds i) fuel).trace, (session cfg (worlds i) fuel).outcome⟩

/-! ## Sample environments -/

/-- A socket on which every call succeeds and every read delivers `data`
from `peer`. -/
def okConn (addr : Addr) (data : Bytes) (peer : Addr) : PacketConn :=
  { localAddr := addr
    writeTo := fun _ => none
    readFrom := fun _ => ⟨data, peer, none⟩
    close := none }

/-- A TURN client on which every call succeeds. -/
def okClient : Client :=
  { listen := none
    allocate := Except.ok (okConn "relay:1" [1, 2, 3] "peer:9")
    sendBindingRequest := Except.ok "mapped:7" }

/-- An environment in which every call succeeds and the clock has passed
the ceiling at the `n`-th check (counted from zero). -/
def okWorld (n : Nat) : World :=
  { listenPacket := fun k => Except.ok (okConn (if k = 0 then "local:0" else "probe:0") [] "")
    newClient := fun _ => Except.ok okClient
    randRead := fun size => List.replicate size 7
    since := fun k => if k < n then (k + 1) * millisecond else minute * 10 + 1 }

/-- A configuration with all required flags. -/
def sampleConfig : Config :=
  { host := "turn.example", port := 3478, user := "u", password := "p", realm := "trtc.one",
    clients := 1, packets := 2, duration := 60 }

/-- A TURN client whose `Allocate` fails. -/
def allocFailClient : Client :=
  { listen := none
    allocate := Except.error "allocate failed"
    sendBindingRequest := Except.ok "mapped:7" }

/-- An environment in which everything succeeds but `client.Allocate()`. -/
def allocFailWorld : World :=
  { listenPacket := fun k => Except.ok (okConn (if k = 0 then "local:0" else "probe:0") [] "")
    newClient := fun _ => Except.ok allocFailClient
    randRead := fun size => List.replicate size 7
    since := fun k => (k + 1) * millisecond }

/-- A probe socket whose `k`-th payload send (counted from zero) fails and
whose `Close` returns `closeErr`. -/
def sendFailConn (k : Nat) (closeErr : Option Err) : PacketConn :=
  { localAddr := "probe:0"
    writeTo := fun j => if j = k then some "send failed" else none
    readFrom := fun _ => ⟨[], "", none⟩
    close := closeErr }

/-- An environment in which the `k`-th payload send fails, the probe socket
closes with `closeErr`, and the clock advances 1 millisecond per batch. -/
def sendFailWorld (k : Nat) (closeErr : Option Err) : World :=
  { listenPacket := fun i =>
      if i = 0 then Except.ok (okConn "local:0" [] "") else Except.ok (sendFailConn k closeErr)
    newClient := fun _ => Except.ok okClient
    randRead := fun size => List.replicate size 7
    since := fun j => (j + 1) * millisecond }

/-- An environment in which every call succeeds and the clock advances
exactly 1 millisecond per batch. -/
def tickWorld : World :=
  { listenPacket := fun k => Except.ok (okConn (if k = 0 then "local:0" else "probe:0") [] "")
    newClient := fun _ => Except.ok okClient
    randRead := fun size => List.replicate size 7
    since := fun k => (k + 1) * millisecond }

/-- The relayed transport of the sample environments. -/
def sampleRelay : PacketConn := okConn "relay:1" [1, 2, 3] "peer:9"

/-! ## Lemmas on `doPingTest` -/

theorem GenRandomBytes_length (randRead : Nat → Bytes) (size : Nat) :
    (GenRandomBytes randRead size).length = size := by
  simp only [GenRandomBytes, List.length_append, List.length_take, List.length_drop,
    List.length_replicate]
  omega

theorem sendBatch_spec (P : PacketConn) (msg : Bytes) (target : Addr) (n k : Nat) :
    ((sendBatch P msg target n k).err = none →
      (sendBatch P msg target n k).trace = List.replicate n (sendEv msg target none) ∧
      (sendBatch P msg target n k).sent = k + n ∧ ∀ j, j < n → P.writeTo (k + j) = none) ∧
    (∀ e, (sendBatch P msg target n k).err = some e →
      ∃ m, m < n ∧
        (sendBatch P msg target n k).trace =
          List.replicate m (sendEv msg target none) ++ [sendEv msg target (some e)] ∧
        P.writeTo (k + m) = some e ∧ ∀ j, j < m → P.writeTo (k + j) = none) := by
  induction n generalizing k with
  | zero => simp [sendBatch]
  | succ n ih =>
    cases hw : P.writeTo k with
    | some e0 =>
      simp only [sendBatch, hw]
      refine ⟨by simp, ?_⟩
      intro e he
      injection he with he
      subst he
      exact ⟨0, by omega, by simp, by simpa using hw, by simp⟩
    | none =>
      simp only [sendBatch, hw]
      obtain ⟨ih1, ih2⟩ := ih (k + 1)
      refine ⟨?_, ?_⟩
      · intro h
        obtain ⟨h1, h2, h3⟩ := ih1 h
        refine ⟨by simp [h1, List.replicate_succ], by omega, ?_⟩
        intro j hj
        cases j with
        | zero => simpa using hw
        | succ j =>
          have := h3 j (by omega)
          rwa [show k + (j + 1) = k + 1 + j by omega]
      · intro e he
        obtain ⟨m, hm, h1, h2, h3⟩ := ih2 e he
        refine ⟨m + 1, by omega, by simp [h1, List.replicate_succ], ?_, ?_⟩
        · rwa [show k + (m + 1) = k + 1 + m by omega]
        · intro j hj
          cases j with
          | zero => simpa using hw
          | succ j =>
            have := h3 j (by omega)
            rwa [show k + (j + 1) = k + 1 + j by omega]

theorem batches_replicate_send (msg : Bytes) (target : Addr) (n : Nat) (err : Option Err) :
    batches (List.replicate n (sendEv msg target err)) = 0 := by
  simp [batches, List.count_eq_zero, List.mem_replicate]

theorem batches_append (a b : List Event) : batches (a ++ b) = batches a + batches b := by
  simp [batches]

theorem trafficLoop_mem (w : World) (P R : PacketConn) (packets : Int) (msg : Bytes) :
    ∀ (fuel b k : Nat) (ev : Event), ev ∈ (trafficLoop w P R packets msg fuel b k).trace →
      (∃ err, ev = sendEv msg R.localAddr err) ∨ ev = Event.sleep millisecond ∨
        ∃ d, ev = Event.timeSince d := by
  intro fuel
  induction fuel with
  | zero => intro b k ev h; simp [trafficLoop] at h
  | succ fuel ih =>
    intro b k ev h
    obtain ⟨h1, h2⟩ := sendBatch_spec P msg R.localAddr packets.toNat k
    cases herr : (sendBatch P msg R.localAddr packets.toNat k).err with
    | some e =>
      obtain ⟨m, -, ht, -, -⟩ := h2 e herr
      simp only [trafficLoop, herr, ht] at h
      simp only [List.mem_append, List.mem_replicate, List.mem_singleton] at h
      rcases h with h | h
      · exact Or.inl ⟨none, h.2⟩
      · exact Or.inl ⟨some e, h⟩
    | none =>
      obtain ⟨ht, -, -⟩ := h1 herr
      simp only [trafficLoop, herr, ht] at h
      split at h
      · simp only [List.mem_append, List.mem_replicate, List.mem_cons, List.mem_singleton,
          List.not_mem_nil, or_false] at h
        rcases h with h | h | h
        · exact Or.inl ⟨none, h.2⟩
        · exact Or.inr (Or.inl h)
        · exact Or.inr (Or.inr ⟨_, h⟩)
      · simp only [List.mem_append, List.mem_replicate, List.mem_cons, List.mem_singleton,
          List.not_mem_nil, or_false] at h
        rcases h with (h | h | h) | h
        · exact Or.inl ⟨none, h.2⟩
        · exact Or.inr (Or.inl h)
        · exact Or.inr (Or.inr ⟨_, h⟩)
        · exact ih _ _ ev h

theorem trafficLoop_cases (w : World) (P R : PacketConn) (packets : Int) (msg : Bytes) :
    ∀ (fuel b k : Nat),
      (((trafficLoop w P R packets msg fuel b k).outcome = Outcome.running ∨
          (trafficLoop w P R packets msg fuel b k).outcome = Outcome.returned none) ∧
        (∀ ev ∈ (trafficLoop w P R packets msg fuel b k).trace, isFailedSend ev = false) ∧
        (trafficLoop w P R packets msg fuel b k).trace.filter isPayloadSend =
          List.replicate (packets.toNat * batches (trafficLoop w P R packets msg fuel b k).trace)
            (sendEv msg R.localAddr none)) ∨
      (∃ e pre, (trafficLoop w P R packets msg fuel b k).outcome = Outcome.returned (some e) ∧
        (trafficLoop w P R packets msg fuel b k).trace = pre ++ [sendEv msg R.localAddr (some e)] ∧
        ∀ ev ∈ pre, isFailedSend ev = false) := by
  intro fuel
  induction fuel with
  | zero => intro b k; left; simp [trafficLoop, batches]
  | succ fuel ih =>
    intro b k
    obtain ⟨h1, h2⟩ := sendBatch_spec P msg R.localAddr packets.toNat k
    cases herr : (sendBatch P msg R.localAddr packets.toNat k).err with
    | some e =>
      obtain ⟨m, -, ht, -, -⟩ := h2 e herr
      right
      refine ⟨e, List.replicate m (sendEv msg R.localAddr none), ?_, ?_, ?_⟩
      · simp [trafficLoop, herr]
      · simp [trafficLoop, herr, ht]
      · intro ev hev
        rw [List.mem_replicate] at hev
        rw [hev.2]; rfl
    | none =>
      obtain ⟨ht, -, -⟩ := h1 herr
      by_cases hd : w.since b > minute * 10
      · left
        simp only [trafficLoop, herr, ht, hd, if_true]
        refine ⟨by simp, ?_, ?_⟩
        · intro ev hev
          simp only [List.mem_append, List.mem_replicate, List.mem_cons, List.mem_singleton,
            List.not_mem_nil, or_false] at hev
          rcases hev with h | h | h
          · rw [h.2]; rfl
          · rw [h]; rfl
          · rw [h]; rfl
        · rw [batches_append, batches_replicate_send]
          simp [batches, isPayloadSend, List.filter_append, List.filter_replicate,
            List.count_cons, millisecond]
      · rcases ih (b + 1) (sendBatch P msg R.localAddr packets.toNat k).sent with
          ⟨ho, hf, hp⟩ | ⟨e, pre, ho, htr, hf⟩
        · left
          simp only [trafficLoop, herr, ht, hd, if_false]
          refine ⟨ho, ?_, ?_⟩
          · intro ev hev
            simp only [List.mem_append, List.mem_replicate, List.mem_cons, List.mem_singleton,
              List.not_mem_nil, or_false] at hev
            rcases hev with (h | h | h) | h
            · rw [h.2]; rfl
            · rw [h]; rfl
            · rw [h]; rfl
            · exact hf ev h
          · rw [List.filter_append, hp, batches_append, batches_append, batches_replicate_send]
            simp [batches, isPayloadSend, List.filter_append, List.filter_replicate,
              List.count_cons, millisecond, Nat.mul_add, ← List.replicate_add]
        · right
          refine ⟨e, List.replicate packets.toNat (sendEv msg R.localAddr none) ++
            [Event.sleep millisecond, Event.timeSince (w.since b)] ++ pre, ?_, ?_, ?_⟩
          · simp [trafficLoop, herr, hd, ho]
          · simp [trafficLoop, herr, ht, hd, htr]
          · intro ev hev
            simp only [List.mem_append, List.mem_replicate, List.mem_cons, List.mem_singleton,
              List.not_mem_nil, or_false] at hev
            rcases hev with (h | h | h) | h
            · rw [h.2]; rfl
            · rw [h]; rfl
            · rw [h]; rfl
            · exact hf ev h

theorem finish_closeSock (t : List Event) (s : Sock) (err : Option Err) (o : Outcome) :
    finish t [Deferred.closeSock s err] o =
      ⟨t ++ [Event.close s err],
        match err with
        | some e => Outcome.panicked e
        | none => o⟩ := by
  cases err <;> rfl

/-- The four ways `doPingTest` can go. -/
theorem doPingTest_shape (client : Client) (R : PacketConn) (packets : Int) (w : World)
    (fuel : Nat) :
    (∃ e, client.sendBindingRequest = Except.error e ∧
      doPingTest client R packets w fuel =
        ⟨[Event.sendBindingRequest (some e)], Outcome.returned (some e)⟩) ∨
    (∃ mapped e, client.sendBindingRequest = Except.ok mapped ∧
      w.listenPacket 1 = Except.error e ∧
      doPingTest client R packets w fuel =
        ⟨[Event.sendBindingRequest none, Event.listenPacket Sock.pingerConn (some e)],
          Outcome.returned (some e)⟩) ∨
    (∃ mapped P e, client.sendBindingRequest = Except.ok mapped ∧
      w.listenPacket 1 = Except.ok P ∧ R.writeTo 1 = some e ∧
      doPingTest client R packets w fuel =
        finish [Event.sendBindingRequest none, Event.listenPacket Sock.pingerConn none,
                Event.writeTo Sock.relayConn hello mapped (R.writeTo 0),
                Event.writeTo Sock.relayConn hello mapped (some e)]
          [Deferred.closeSock Sock.pingerConn P.close] (Outcome.returned (some e))) ∨
    (∃ mapped P, client.sendBindingRequest = Except.ok mapped ∧
      w.listenPacket 1 = Except.ok P ∧ R.writeTo 1 = none ∧
      (((trafficLoop w P R packets (GenRandomBytes w.randRead 1000) fuel 0 0).outcome =
            Outcome.running ∧
          doPingTest client R packets w fuel =
            ⟨punchTrace mapped (R.writeTo 0) ++
              (trafficLoop w P R packets (GenRandomBytes w.randRead 1000) fuel 0 0).trace,
              Outcome.running⟩) ∨
        ((trafficLoop w P R packets (GenRandomBytes w.randRead 1000) fuel 0 0).outcome ≠
            Outcome.running ∧
          doPingTest client R packets w fuel =
            finish (punchTrace mapped (R.writeTo 0) ++
              (trafficLoop w P R packets (GenRandomBytes w.randRead 1000) fuel 0 0).trace)
              [Deferred.closeSock Sock.pingerConn P.close]
              (trafficLoop w P R packets (GenRandomBytes w.randRead 1000) fuel 0 0).outcome))) := by
  cases hb : client.sendBindingRequest with
  | error e => left; exact ⟨e, rfl, by simp [doPingTest, hb]⟩
  | ok mapped =>
    right
    cases hl : w.listenPacket 1 with
    | error e => left; exact ⟨mapped, e, rfl, rfl, by simp [doPingTest, hb, hl]⟩
    | ok P =>
      right
      cases hw : R.writeTo 1 with
      | some e => left; exact ⟨mapped, P, e, rfl, rfl, rfl, by simp [doPingTest, hb, hl, hw]⟩
      | none =>
        right
        refine ⟨mapped, P, rfl, rfl, rfl, ?_⟩
        cases ho : (trafficLoop w P R packets (GenRandomBytes w.randRead 1000) fuel 0 0).outcome with
        | running => left; exact ⟨rfl, by simp [doPingTest, hb, hl, hw, ho]⟩
        | returned err => right; exact ⟨by simp, by simp [doPingTest, hb, hl, hw, ho]⟩
        | panicked e => right; exact ⟨by simp, by simp [doPingTest, hb, hl, hw, ho]⟩

theorem punchTrace_not_send (mapped : Addr) (e1 : Option Err) :
    ∀ ev ∈ punchTrace mapped e1, isPayloadSend ev = false := by
  intro ev hev
  simp only [punchTrace, List.mem_cons, List.mem_singleton, List.not_mem_nil, or_false] at hev
  rcases hev with h | h | h | h | h | h | h | h | h <;> rw [h] <;> rfl

theorem isFailedSend_le (ev : Event) (h : isPayloadSend ev = false) : isFailedSend ev = false := by
  cases ev <;> simp_all [isPayloadSend, isFailedSend]
  rename_i s _ _ err
  cases s <;> cases err <;> simp_all [isPayloadSend, isFailedSend]

theorem batches_punchTrace (mapped : Addr) (e1 : Option Err) :
    batches (punchTrace mapped e1) = 0 := by
  simp [batches, punchTrace, List.count_cons, millisecond]

theorem filter_punchTrace (mapped : Addr) (e1 : Option Err) :
    (punchTrace mapped e1).filter isPayloadSend = [] := by
  simp [punchTrace, isPayloadSend]

theorem split_in_suffix {q : Event → Bool} (A L pre post : List Event) (x : Event)
    (hA : ∀ a ∈ A, q a = false) (hx : q x = true) (h : A ++ L = pre ++ x :: post) :
    ∃ mid, pre = A ++ mid ∧ L = mid ++ x :: post := by
  rcases List.append_eq_append_iff.mp h with ⟨a', h1, h2⟩ | ⟨c', h1, h2⟩
  · exact ⟨a', h1, h2⟩
  · cases c' with
    | nil => exact ⟨[], by simpa using h1.symm, by simpa using h2.symm⟩
    | cons c cs =>
      simp only [List.cons_append, List.cons.injEq] at h2
      have hmem : x ∈ A := by rw [h1, h2.1]; simp
      have := hA x hmem
      rw [hx] at this
      exact absurd this (by simp)

theorem randRead_mem_punchTrace (mapped : Addr) (e1 : Option Err) :
    Event.randRead 1000 ∈ punchTrace mapped e1 := by
  simp [punchTrace]

theorem count_randRead_punchTrace (mapped : Addr) (e1 : Option Err) :
    (punchTrace mapped e1).count (Event.randRead 1000) = 1 := by
  simp [punchTrace, List.count_cons]

theorem trafficLoop_count_randRead (w : World) (P R : PacketConn) (packets : Int) (msg : Bytes)
    (fuel b k : Nat) :
    (trafficLoop w P R packets msg fuel b k).trace.count (Event.randRead 1000) = 0 := by
  rw [List.count_eq_zero]
  intro h
  rcases trafficLoop_mem w P R packets msg fuel b k _ h with ⟨err, h⟩ | h | ⟨d, h⟩ <;> cases h

/-- C3: every payload send of `doPingTest` goes from the probe socket to
`relayConn.LocalAddr()` and carries the buffer `GenRandomBytes(1000)`, which
has 1000 bytes and is generated once, before any payload send; a batch in which no send
fails issues exactly `packets` sends (none when `packets <= 0`); and a run
without a failed send has issued exactly `max(packets, 0) * k` payload sends,
`k` the number of batches it completed. -/
theorem doPingTest_payload_sends (client : Client) (relayConn : PacketConn) (packets : Int)
    (w : World) (fuel : Nat) :
    (GenRandomBytes w.randRead 1000).length = 1000 ∧
    ((packets.toNat : Int) = max packets 0) ∧
    (∀ (pingerConn : PacketConn) (k : Nat),
      (∀ j, j < packets.toNat → pingerConn.writeTo (k + j) = none) →
      (sendBatch pingerConn (GenRandomBytes w.randRead 1000) relayConn.localAddr
          packets.toNat k).trace =
        List.replicate packets.toNat
          (Event.writeTo Sock.pingerConn (GenRandomBytes w.randRead 1000)
            relayConn.localAddr none)) ∧
    (∀ ev ∈ (doPingTest client relayConn packets w fuel).trace, isPayloadSend ev = true →
      ∃ err, ev = Event.writeTo Sock.pingerConn (GenRandomBytes w.randRead 1000)
        relayConn.localAddr err) ∧
    (doPingTest client relayConn packets w fuel).trace.count (Event.randRead 1000) ≤ 1 ∧
    (∀ pre ev post, (doPingTest client relayConn packets w fuel).trace = pre ++ ev :: post →
      isPayloadSend ev = true → Event.randRead 1000 ∈ pre) ∧
    ((∀ ev ∈ (doPingTest client relayConn packets w fuel).trace, isFailedSend ev = false) →
      (doPingTest client relayConn packets w fuel).trace.filter isPayloadSend =
        List.replicate (packets.toNat * batches (doPingTest client relayConn packets w fuel).trace)
          (Event.writeTo Sock.pingerConn (GenRandomBytes w.randRead 1000)
            relayConn.localAddr none)) := by
  refine ⟨GenRandomBytes_length _ _, Int.toNat_eq_max packets, ?_, ?_, ?_, ?_, ?_⟩
  · intro pingerConn k hk
    obtain ⟨h1, h2⟩ := sendBatch_spec pingerConn (GenRandomBytes w.randRead 1000)
      relayConn.localAddr packets.toNat k
    cases herr : (sendBatch pingerConn (GenRandomBytes w.randRead 1000)
      relayConn.localAddr packets.toNat k).err with
    | none => exact (h1 herr).1
    | some e =>
      obtain ⟨m, hm, -, hw, -⟩ := h2 e herr
      rw [hk m hm] at hw
      cases hw
  · intro ev hev hsend
    rcases doPingTest_shape client relayConn packets w fuel with
      ⟨e, -, h⟩ | ⟨mapped, e, -, -, h⟩ | ⟨mapped, P, e, -, -, -, h⟩ |
      ⟨mapped, P, -, -, -, ⟨-, h⟩ | ⟨-, h⟩⟩
    · rw [h] at hev; simp at hev; rw [hev] at hsend; cases hsend
    · rw [h] at hev; simp at hev; rcases hev with hev | hev <;> rw [hev] at hsend <;> cases hsend
    · rw [h, finish_closeSock] at hev
      simp at hev
      rcases hev with hev | hev | hev | hev | hev <;> rw [hev] at hsend <;> cases hsend
    · rw [h] at hev
      simp only [List.mem_append] at hev
      rcases hev with hev | hev
      · rw [punchTrace_not_send _ _ ev hev] at hsend; cases hsend
      · rcases trafficLoop_mem _ _ _ _ _ _ _ _ ev hev with ⟨err, h⟩ | h | ⟨d, h⟩
        · exact ⟨err, h⟩
        · rw [h] at hsend; cases hsend
        · rw [h] at hsend; cases hsend
    · rw [h, finish_closeSock] at hev
      simp only [List.mem_append, List.mem_singleton] at hev
      rcases hev with (hev | hev) | hev
      · rw [punchTrace_not_send _ _ ev hev] at hsend; cases hsend
      · rcases trafficLoop_mem _ _ _ _ _ _ _ _ ev hev with ⟨err, h⟩ | h | ⟨d, h⟩
        · exact ⟨err, h⟩
        · rw [h] at hsend; cases hsend
        · rw [h] at hsend; cases hsend
      · rw [hev] at hsend; cases hsend
  · rcases doPingTest_shape client relayConn packets w fuel with
      ⟨e, -, h⟩ | ⟨mapped, e, -, -, h⟩ | ⟨mapped, P, e, -, -, -, h⟩ |
      ⟨mapped, P, -, -, -, ⟨-, h⟩ | ⟨-, h⟩⟩
    · rw [h]; simp [List.count_cons]
    · rw [h]; simp [List.count_cons]
    · rw [h, finish_closeSock]; simp [List.count_cons]
    · rw [h]
      simp only [List.count_append, count_randRead_punchTrace, trafficLoop_count_randRead]
      omega
    · rw [h, finish_closeSock]
      simp only [List.count_append, count_randRead_punchTrace, trafficLoop_count_randRead]
      simp [List.count_cons]
  · intro pre ev post htr hsend
    rcases doPingTest_shape client relayConn packets w fuel with
      ⟨e, -, h⟩ | ⟨mapped, e, -, -, h⟩ | ⟨mapped, P, e, -, -, -, h⟩ |
      ⟨mapped, P, -, -, -, ⟨-, h⟩ | ⟨-, h⟩⟩
    · have hmem : ev ∈ (doPingTest client relayConn packets w fuel).trace := by
        rw [htr]; simp
      rw [h] at hmem; simp at hmem; rw [hmem] at hsend; cases hsend
    · have hmem : ev ∈ (doPingTest client relayConn packets w fuel).trace := by
        rw [htr]; simp
      rw [h] at hmem; simp at hmem
      rcases hmem with hev | hev <;> rw [hev] at hsend <;> cases hsend
    · have hmem : ev ∈ (doPingTest client relayConn packets w fuel).trace := by
        rw [htr]; simp
      rw [h, finish_closeSock] at hmem; simp at hmem
      rcases hmem with hev | hev | hev | hev | hev <;> rw [hev] at hsend <;> cases hsend
    · rw [h] at htr
      obtain ⟨mid, hpre, -⟩ := split_in_suffix _ _ pre post ev (punchTrace_not_send _ _) hsend htr
      rw [hpre]
      exact List.mem_append_left _ (randRead_mem_punchTrace _ _)
    · rw [h, finish_closeSock] at htr
      simp only [List.append_assoc] at htr
      obtain ⟨mid, hpre, -⟩ := split_in_suffix _ _ pre post ev (punchTrace_not_send _ _) hsend htr
      rw [hpre]
      exact List.mem_append_left _ (randRead_mem_punchTrace _ _)
  · intro hok
    rcases doPingTest_shape client relayConn packets w fuel with
      ⟨e, -, h⟩ | ⟨mapped, e, -, -, h⟩ | ⟨mapped, P, e, -, -, -, h⟩ |
      ⟨mapped, P, -, -, -, ⟨-, h⟩ | ⟨-, h⟩⟩
    · rw [h]; simp [isPayloadSend, batches, List.count_cons]
    · rw [h]; simp [isPayloadSend, batches, List.count_cons]
    · rw [h, finish_closeSock]; simp [isPayloadSend, batches, List.count_cons, millisecond]
    · rw [h] at hok ⊢
      simp only [List.filter_append, filter_punchTrace, batches_append, batches_punchTrace,
        List.nil_append, Nat.zero_add]
      rcases trafficLoop_cases w P relayConn packets (GenRandomBytes w.randRead 1000) fuel 0 0 with
        ⟨-, -, hp⟩ | ⟨e, pre, -, htr, -⟩
      · exact hp
      · have := hok (sendEv (GenRandomBytes w.randRead 1000) relayConn.localAddr (some e))
          (by simp [htr])
        cases this
    · rw [h, finish_closeSock] at hok ⊢
      simp only [List.filter_append, filter_punchTrace, batches_append, batches_punchTrace,
        List.nil_append, Nat.zero_add]
      rcases trafficLoop_cases w P relayConn packets (GenRandomBytes w.randRead 1000) fuel 0 0 with
        ⟨-, -, hp⟩ | ⟨e, pre, -, htr, -⟩
      · rw [hp]
        simp [isPayloadSend, batches, List.count_cons, millisecond]
      · have := hok (sendEv (GenRandomBytes w.randRead 1000) relayConn.localAddr (some e))
          (by simp [htr])
        cases this

theorem split_unique {q : Event → Bool} (A C pre post : List Event) (f x : Event)
    (hA : ∀ a ∈ A, q a = false) (hC : ∀ a ∈ C, q a = false) (hx : q x = true)
    (h : A ++ f :: C = pre ++ x :: post) : pre = A ∧ x = f ∧ post = C := by
  induction A generalizing pre with
  | nil =>
    cases pre with
    | nil =>
      simp only [List.nil_append, List.cons.injEq] at h
      exact ⟨rfl, h.1.symm, h.2.symm⟩
    | cons y ys =>
      simp only [List.nil_append, List.cons_append, List.cons.injEq] at h
      have hmem : x ∈ C := by rw [h.2]; simp
      have := hC x hmem
      rw [hx] at this
      exact absurd this (by simp)
  | cons a A ih =>
    cases pre with
    | nil =>
      simp only [List.nil_append, List.cons_append, List.cons.injEq] at h
      have := hA a (by simp)
      rw [h.1, hx] at this
      exact absurd this (by simp)
    | cons y ys =>
      simp only [List.cons_append, List.cons.injEq] at h
      obtain ⟨h1, h2, h3⟩ := ih ys (fun b hb => hA b (List.mem_cons_of_mem _ hb)) h.2
      exact ⟨by rw [h.1, h1], h2, h3⟩

theorem punchTrace_not_failed (mapped : Addr) (e1 : Option Err) :
    ∀ ev ∈ punchTrace mapped e1, isFailedSend ev = false :=
  fun ev hev => isFailedSend_le ev (punchTrace_not_send mapped e1 ev hev)

/-- C4 (as amended): in any run of `doPingTest`, a failed payload send is
the last action of the traffic loop: no payload send before it failed, the
loop hands exactly its error to `return`, and the only action after it is
the deferred close of the probe socket; `doPingTest` then returns exactly
that error when the close succeeds and panics with the close error when it
fails.  `doPingTest` returns nil only if no payload send failed. -/
theorem doPingTest_send_error (client : Client) (relayConn : PacketConn) (packets : Int)
    (w : World) (fuel : Nat) :
    (∀ (pingerConn : PacketConn) (msg : Bytes) (b k : Nat) pre p a e post,
      (trafficLoop w pingerConn relayConn packets msg fuel b k).trace =
          pre ++ Event.writeTo Sock.pingerConn p a (some e) :: post →
        (∀ ev ∈ pre, isFailedSend ev = false) ∧ post = [] ∧
        (trafficLoop w pingerConn relayConn packets msg fuel b k).outcome =
          Outcome.returned (some e)) ∧
    (∀ pre p a e post,
      (doPingTest client relayConn packets w fuel).trace =
          pre ++ Event.writeTo Sock.pingerConn p a (some e) :: post →
        (∀ ev ∈ pre, isFailedSend ev = false) ∧
        ∃ closeErr, post = [Event.close Sock.pingerConn closeErr] ∧
          (doPingTest client relayConn packets w fuel).outcome =
            match closeErr with
            | none => Outcome.returned (some e)
            | some c => Outcome.panicked c) ∧
    ((doPingTest client relayConn packets w fuel).outcome = Outcome.returned none →
      ∀ ev ∈ (doPingTest client relayConn packets w fuel).trace, isFailedSend ev = false) := by
  have hloop : ∀ (pingerConn : PacketConn) (msg : Bytes) (b k : Nat) pre p a e post,
      (trafficLoop w pingerConn relayConn packets msg fuel b k).trace =
          pre ++ Event.writeTo Sock.pingerConn p a (some e) :: post →
        (∀ ev ∈ pre, isFailedSend ev = false) ∧ post = [] ∧
        (trafficLoop w pingerConn relayConn packets msg fuel b k).outcome =
          Outcome.returned (some e) := by
    intro P msg b k pre p a e post htr
    rcases trafficLoop_cases w P relayConn packets msg fuel b k with
      ⟨-, hf, -⟩ | ⟨e0, pre0, ho, ht, hf⟩
    · have := hf (Event.writeTo Sock.pingerConn p a (some e)) (by rw [htr]; simp)
      cases this
    · rw [ht] at htr
      have hx : isFailedSend (Event.writeTo Sock.pingerConn p a (some e)) = true := rfl
      obtain ⟨h1, h2, h3⟩ := split_unique pre0 [] pre post _ _ hf (by simp) hx htr
      injection h2 with _ _ _ h4
      injection h4 with h4
      subst h4
      exact ⟨by rw [h1]; exact hf, h3, ho⟩
  refine ⟨hloop, ?_, ?_⟩
  · intro pre p a e post htr
    have hmem : Event.writeTo Sock.pingerConn p a (some e) ∈
        (doPingTest client relayConn packets w fuel).trace := by rw [htr]; simp
    rcases doPingTest_shape client relayConn packets w fuel with
      ⟨e', -, h⟩ | ⟨mapped, e', -, -, h⟩ | ⟨mapped, P, e', -, -, -, h⟩ |
      ⟨mapped, P, -, -, -, ⟨hrun, h⟩ | ⟨hrun, h⟩⟩
    · rw [h] at hmem; simp at hmem
    · rw [h] at hmem; simp at hmem
    · rw [h, finish_closeSock] at hmem; simp at hmem
    · exfalso
      rw [h] at hmem
      simp only [List.mem_append] at hmem
      rcases hmem with hmem | hmem
      · have := punchTrace_not_failed _ _ _ hmem; cases this
      · rcases trafficLoop_cases w P relayConn packets (GenRandomBytes w.randRead 1000)
          fuel 0 0 with ⟨-, hf, -⟩ | ⟨e0, pre0, ho, -, -⟩
        · have := hf _ hmem; cases this
        · rw [ho] at hrun; cases hrun
    · rcases trafficLoop_cases w P relayConn packets (GenRandomBytes w.randRead 1000)
          fuel 0 0 with ⟨-, hf, -⟩ | ⟨e0, pre0, ho, ht, hf⟩
      · exfalso
        rw [h, finish_closeSock] at hmem
        simp only [List.mem_append, List.mem_singleton] at hmem
        rcases hmem with (hmem | hmem) | hmem
        · have := punchTrace_not_failed _ _ _ hmem; cases this
        · have := hf _ hmem; cases this
        · cases hmem
      · rw [h, finish_closeSock, ht] at htr
        rw [h, finish_closeSock, ho]
        simp only [List.append_assoc, List.singleton_append] at htr
        rw [← List.append_assoc] at htr
        have hA : ∀ ev ∈ punchTrace mapped (relayConn.writeTo 0) ++ pre0,
            isFailedSend ev = false := by
          intro ev hev
          rcases List.mem_append.mp hev with hev | hev
          · exact punchTrace_not_failed _ _ _ hev
          · exact hf _ hev
        have hx : isFailedSend (Event.writeTo Sock.pingerConn p a (some e)) = true := rfl
        obtain ⟨h1, h2, h3⟩ := split_unique _ _ pre post _ _ hA
          (by simp [isFailedSend]) hx htr
        injection h2 with _ _ _ h4
        injection h4 with h4
        subst h4
        refine ⟨by rw [h1]; exact hA, P.close, h3, ?_⟩
        cases P.close <;> rfl
  · intro ho ev hev
    rcases doPingTest_shape client relayConn packets w fuel with
      ⟨e', -, h⟩ | ⟨mapped, e', -, -, h⟩ | ⟨mapped, P, e', -, -, -, h⟩ |
      ⟨mapped, P, -, -, -, ⟨hrun, h⟩ | ⟨hrun, h⟩⟩
    · rw [h] at ho; cases ho
    · rw [h] at ho; cases ho
    · rw [h, finish_closeSock] at ho
      cases hc : P.close <;> rw [hc] at ho <;> cases ho
    · rw [h] at ho; cases ho
    · rw [h, finish_closeSock] at ho hev
      rcases trafficLoop_cases w P relayConn packets (GenRandomBytes w.randRead 1000)
          fuel 0 0 with ⟨-, hf, -⟩ | ⟨e0, pre0, ho', -, -⟩
      · simp only [List.mem_append, List.mem_singleton] at hev
        rcases hev with (hev | hev) | hev
        · exact punchTrace_not_failed _ _ _ hev
        · exact hf _ hev
        · rw [hev]; rfl
      · rw [ho'] at ho
        cases hc : P.close <;> rw [hc] at ho <;> cases ho

theorem trafficLoop_not_relayWrite (w : World) (P R : PacketConn) (packets : Int) (msg : Bytes)
    (fuel b k : Nat) :
    ∀ ev ∈ (trafficLoop w P R packets msg fuel b k).trace, isRelayWrite ev = false := by
  intro ev hev
  rcases trafficLoop_mem w P R packets msg fuel b k ev hev with ⟨err, h⟩ | h | ⟨d, h⟩ <;>
    rw [h] <;> rfl

theorem filter_relayWrite_punchTrace (mapped : Addr) (e1 : Option Err) :
    (punchTrace mapped e1).filter isRelayWrite =
      [Event.writeTo Sock.relayConn hello mapped e1,
       Event.writeTo Sock.relayConn hello mapped none] := by
  simp [punchTrace, isRelayWrite]

theorem filter_nil_of_split {q : Event → Bool} (L mid post : List Event) (x : Event)
    (hL : ∀ ev ∈ L, q ev = false) (h : L = mid ++ x :: post) :
    mid.filter q = [] ∧ post.filter q = [] := by
  subst h
  constructor
  · rw [List.filter_eq_nil_iff]
    intro a ha
    simp [hL a (by simp [ha])]
  · rw [List.filter_eq_nil_iff]
    intro a ha
    simp [hL a (by simp [ha])]

/-- C9: in any run of `doPingTest`, before any payload send the relayed
transport has written the 5-byte payload "Hello" exactly twice, both times
to the mapped address the binding request returned, and these are the only
writes `doPingTest` issues on the relayed transport: none follows a payload
send. -/
theorem doPingTest_hole_punch_first (client : Client) (relayConn : PacketConn) (packets : Int)
    (w : World) (fuel : Nat) :
    ∀ pre ev post, (doPingTest client relayConn packets w fuel).trace = pre ++ ev :: post →
      isPayloadSend ev = true →
      ∃ mapped e1, client.sendBindingRequest = Except.ok mapped ∧ hello.length = 5 ∧
        pre.filter isRelayWrite =
          [Event.writeTo Sock.relayConn hello mapped e1,
           Event.writeTo Sock.relayConn hello mapped none] ∧
        post.filter isRelayWrite = [] := by
  intro pre ev post htr hsend
  have hmem : ev ∈ (doPingTest client relayConn packets w fuel).trace := by rw [htr]; simp
  rcases doPingTest_shape client relayConn packets w fuel with
    ⟨e', -, h⟩ | ⟨mapped, e', -, -, h⟩ | ⟨mapped, P, e', -, -, -, h⟩ |
    ⟨mapped, P, hb, -, -, ⟨-, h⟩ | ⟨-, h⟩⟩
  · rw [h] at hmem; simp at hmem; rw [hmem] at hsend; cases hsend
  · rw [h] at hmem; simp at hmem
    rcases hmem with hev | hev <;> rw [hev] at hsend <;> cases hsend
  · rw [h, finish_closeSock] at hmem; simp at hmem
    rcases hmem with hev | hev | hev | hev | hev <;> rw [hev] at hsend <;> cases hsend
  · rw [h] at htr
    obtain ⟨mid, hpre, hL⟩ := split_in_suffix _ _ pre post ev (punchTrace_not_send _ _) hsend htr
    obtain ⟨h1, h2⟩ := filter_nil_of_split _ mid post ev
      (trafficLoop_not_relayWrite w P relayConn packets _ fuel 0 0) hL
    refine ⟨mapped, relayConn.writeTo 0, hb, rfl, ?_, h2⟩
    rw [hpre, List.filter_append, h1, filter_relayWrite_punchTrace]
    rfl
  · rw [h, finish_closeSock] at htr
    simp only [List.append_assoc] at htr
    obtain ⟨mid, hpre, hL⟩ := split_in_suffix _ _ pre post ev (punchTrace_not_send _ _) hsend htr
    have hno : ∀ ev ∈ (trafficLoop w P relayConn packets (GenRandomBytes w.randRead 1000)
        fuel 0 0).trace ++ [Event.close Sock.pingerConn P.close], isRelayWrite ev = false := by
      intro a ha
      rcases List.mem_append.mp ha with ha | ha
      · exact trafficLoop_not_relayWrite w P relayConn packets _ fuel 0 0 a ha
      · rw [List.mem_singleton] at ha; rw [ha]; rfl
    obtain ⟨h1, h2⟩ := filter_nil_of_split _ mid post ev hno hL
    refine ⟨mapped, relayConn.writeTo 0, hb, rfl, ?_, h2⟩
    rw [hpre, List.filter_append, h1, filter_relayWrite_punchTrace]
    rfl

/-! ### Termination of the traffic loop -/

theorem sendBatch_err_none (P : PacketConn) (msg : Bytes) (target : Addr)
    (hsend : ∀ k, P.writeTo k = none) (n k : Nat) :
    (sendBatch P msg target n k).err = none := by
  obtain ⟨-, h2⟩ := sendBatch_spec P msg target n k
  cases herr : (sendBatch P msg target n k).err with
  | none => rfl
  | some e =>
    obtain ⟨m, -, -, hw, -⟩ := h2 e herr
    rw [hsend] at hw
    cases hw

theorem trafficLoop_running (w : World) (P R : PacketConn) (packets : Int) (msg : Bytes)
    (hsend : ∀ k, P.writeTo k = none) :
    ∀ (fuel b k : Nat), (∀ j, b ≤ j → j < b + fuel → w.since j ≤ minute * 10) →
      (trafficLoop w P R packets msg fuel b k).outcome = Outcome.running := by
  intro fuel
  induction fuel with
  | zero => intro b k _; rfl
  | succ fuel ih =>
    intro b k h
    have hd : ¬ w.since b > minute * 10 := not_lt.mpr (h b (le_refl _) (by omega))
    simp only [trafficLoop, sendBatch_err_none P msg R.localAddr hsend, hd, if_false]
    exact ih (b + 1) _ (fun j h1 h2 => h j (by omega) (by omega))

theorem trafficLoop_stops (w : World) (P R : PacketConn) (packets : Int) (msg : Bytes)
    (hsend : ∀ k, P.writeTo k = none) :
    ∀ (d b k fuel : Nat), (∀ j, b ≤ j → j < b + d → w.since j ≤ minute * 10) →
      minute * 10 < w.since (b + d) → d + 1 ≤ fuel →
      (trafficLoop w P R packets msg fuel b k).outcome = Outcome.returned none ∧
      batches (trafficLoop w P R packets msg fuel b k).trace = d + 1 := by
  intro d
  induction d with
  | zero =>
    intro b k fuel _ hgt hfuel
    obtain ⟨fuel, rfl⟩ : ∃ f, fuel = f + 1 := ⟨fuel - 1, by omega⟩
    have hd : w.since b > minute * 10 := by simpa using hgt
    have ht := ((sendBatch_spec P msg R.localAddr packets.toNat k).1
      (sendBatch_err_none P msg R.localAddr hsend _ _)).1
    simp only [trafficLoop, sendBatch_err_none P msg R.localAddr hsend, hd, if_true, ht]
    refine ⟨trivial, ?_⟩
    rw [batches_append, batches_replicate_send]
    simp [batches, List.count_cons, millisecond]
  | succ d ih =>
    intro b k fuel hle hgt hfuel
    obtain ⟨fuel, rfl⟩ : ∃ f, fuel = f + 1 := ⟨fuel - 1, by omega⟩
    have hd : ¬ w.since b > minute * 10 := not_lt.mpr (hle b (le_refl _) (by omega))
    have ht := ((sendBatch_spec P msg R.localAddr packets.toNat k).1
      (sendBatch_err_none P msg R.localAddr hsend _ _)).1
    obtain ⟨ih1, ih2⟩ := ih (b + 1) (sendBatch P msg R.localAddr packets.toNat k).sent fuel
      (fun j h1 h2 => hle j (by omega) (by omega))
      (by rwa [show b + 1 + d = b + (d + 1) by omega]) (by omega)
    simp only [trafficLoop, sendBatch_err_none P msg R.localAddr hsend, hd, if_false, ht]
    refine ⟨ih1, ?_⟩
    rw [batches_append, batches_append, batches_replicate_send, ih2]
    simp [batches, List.count_cons, millisecond]
    omega

theorem since_lower_bound (w : World) (h0 : millisecond ≤ w.since 0)
    (hstep : ∀ k, w.since k + millisecond ≤ w.since (k + 1)) :
    ∀ k : Nat, ((k : Int) + 1) * millisecond ≤ w.since k := by
  intro k
  induction k with
  | zero => simpa using h0
  | succ k ih =>
    have := hstep k
    push_cast
    linarith

/-- C5: when no payload send fails and the elapsed time read after a sleep
is at least 1 millisecond at the first check and grows by at least
1 millisecond from one check to the next, the traffic loop ends: there is a
number `n` of batches, at least 1 and at most 600001, such that observing
`n` or more batches shows the loop returning nil after exactly `n` batches,
observing fewer shows it still running, the elapsed time read after batch
`n` is strictly greater than 10 minutes, and the elapsed time read after
every earlier batch is not. -/
theorem trafficLoop_terminates (w : World) (pingerConn relayConn : PacketConn) (packets : Int)
    (msg : Bytes) (hsend : ∀ k, pingerConn.writeTo k = none)
    (h0 : millisecond ≤ w.since 0)
    (hstep : ∀ k, w.since k + millisecond ≤ w.since (k + 1)) :
    ∃ n, 1 ≤ n ∧ n ≤ 600001 ∧
      (∀ fuel, n ≤ fuel →
        (trafficLoop w pingerConn relayConn packets msg fuel 0 0).outcome =
          Outcome.returned none ∧
        batches (trafficLoop w pingerConn relayConn packets msg fuel 0 0).trace = n) ∧
      (∀ fuel, fuel < n →
        (trafficLoop w pingerConn relayConn packets msg fuel 0 0).outcome = Outcome.running) ∧
      minute * 10 < w.since (n - 1) ∧
      ∀ j, j + 1 < n → w.since j ≤ minute * 10 := by
  have hex : ∃ m, minute * 10 < w.since m := by
    refine ⟨600000, ?_⟩
    have := since_lower_bound w h0 hstep 600000
    simp only [millisecond, minute] at this ⊢
    push_cast at this
    linarith
  classical
  let m := Nat.find hex
  have hm : minute * 10 < w.since m := Nat.find_spec hex
  have hmin : ∀ j, j < m → w.since j ≤ minute * 10 :=
    fun j hj => not_lt.mp (Nat.find_min hex hj)
  have hm_le : m ≤ 600000 := by
    apply Nat.find_min' hex
    have := since_lower_bound w h0 hstep 600000
    simp only [millisecond, minute] at this ⊢
    push_cast at this
    linarith
  refine ⟨m + 1, by omega, by omega, ?_, ?_, by simpa using hm, ?_⟩
  · intro fuel hfuel
    exact trafficLoop_stops w pingerConn relayConn packets msg hsend m 0 0 fuel
      (fun j _ h2 => hmin j (by omega)) (by simpa using hm) hfuel
  · intro fuel hfuel
    exact trafficLoop_running w pingerConn relayConn packets msg hsend fuel 0 0
      (fun j _ h2 => hmin j (by omega))
  · intro j hj
    exact hmin j (by omega)

theorem doPingTest_mem (client : Client) (R : PacketConn) (packets : Int) (w : World)
    (fuel : Nat) : ∀ ev ∈ (doPingTest client R packets w fuel).trace, inPingTest ev = true := by
  intro ev hev
  have hpunch : ∀ mapped e1, ∀ ev ∈ punchTrace mapped e1, inPingTest ev = true := by
    intro mapped e1 ev hev
    simp only [punchTrace, List.mem_cons, List.mem_singleton, List.not_mem_nil, or_false] at hev
    rcases hev with h | h | h | h | h | h | h | h | h <;> rw [h] <;> rfl
  have hloop : ∀ P, ∀ ev ∈ (trafficLoop w P R packets (GenRandomBytes w.randRead 1000)
      fuel 0 0).trace, inPingTest ev = true := by
    intro P ev hev
    rcases trafficLoop_mem _ _ _ _ _ _ _ _ ev hev with ⟨err, h⟩ | h | ⟨d, h⟩ <;> rw [h] <;> rfl
  rcases doPingTest_shape client R packets w fuel with
    ⟨e', -, h⟩ | ⟨mapped, e', -, -, h⟩ | ⟨mapped, P, e', -, -, -, h⟩ |
    ⟨mapped, P, -, -, -, ⟨-, h⟩ | ⟨-, h⟩⟩
  · rw [h] at hev; simp at hev; rw [hev]; rfl
  · rw [h] at hev; simp at hev; rcases hev with h | h <;> rw [h] <;> rfl
  · rw [h, finish_closeSock] at hev; simp at hev
    rcases hev with h | h | h | h | h <;> rw [h] <;> rfl
  · rw [h] at hev
    rcases List.mem_append.mp hev with hev | hev
    · exact hpunch _ _ ev hev
    · exact hloop _ ev hev
  · rw [h, finish_closeSock] at hev
    simp only [List.mem_append, List.mem_singleton] at hev
    rcases hev with (hev | hev) | hev
    · exact hpunch _ _ ev hev
    · exact hloop _ ev hev
    · rw [hev]; rfl

theorem doPingTest_countP_zero (client : Client) (R : PacketConn) (packets : Int) (w : World)
    (fuel : Nat) (q : Event → Bool) (hq : ∀ ev, inPingTest ev = true → q ev = false) :
    (doPingTest client R packets w fuel).trace.countP q = 0 := by
  rw [List.countP_eq_zero]
  intro ev hev
  simp [hq ev (doPingTest_mem client R packets w fuel ev hev)]

theorem punchTrace_opens (mapped : Addr) (e1 : Option Err) :
    (punchTrace mapped e1).countP (opensSock Sock.pingerConn) = 1 ∧
    (punchTrace mapped e1).countP (closesSock Sock.pingerConn) = 0 := by
  constructor <;> simp [punchTrace, List.countP_cons, opensSock, closesSock]

/-- In a run of `doPingTest` that has ended, the probe socket is closed as
often as it was opened, and it is opened at most once. -/
theorem doPingTest_pinger_balance (client : Client) (R : PacketConn) (packets : Int) (w : World)
    (fuel : Nat) (hexit : (doPingTest client R packets w fuel).outcome ≠ Outcome.running) :
    (doPingTest client R packets w fuel).trace.countP (closesSock Sock.pingerConn) =
      (doPingTest client R packets w fuel).trace.countP (opensSock Sock.pingerConn) ∧
    (doPingTest client R packets w fuel).trace.countP (opensSock Sock.pingerConn) ≤ 1 := by
  have hloop : ∀ P, (trafficLoop w P R packets (GenRandomBytes w.randRead 1000)
      fuel 0 0).trace.countP (opensSock Sock.pingerConn) = 0 ∧
      (trafficLoop w P R packets (GenRandomBytes w.randRead 1000)
      fuel 0 0).trace.countP (closesSock Sock.pingerConn) = 0 := by
    intro P
    constructor <;> rw [List.countP_eq_zero] <;> intro ev hev <;>
      rcases trafficLoop_mem _ _ _ _ _ _ _ _ ev hev with ⟨err, h⟩ | h | ⟨d, h⟩ <;>
      rw [h] <;> simp [opensSock, closesSock]
  rcases doPingTest_shape client R packets w fuel with
    ⟨e', -, h⟩ | ⟨mapped, e', -, -, h⟩ | ⟨mapped, P, e', -, -, -, h⟩ |
    ⟨mapped, P, -, -, -, ⟨-, h⟩ | ⟨-, h⟩⟩
  · rw [h]; simp [List.countP_cons, opensSock, closesSock]
  · rw [h]; simp [List.countP_cons, opensSock, closesSock]
  · rw [h, finish_closeSock]; simp [List.countP_cons, opensSock, closesSock]
  · rw [h] at hexit; exact absurd rfl hexit
  · rw [h, finish_closeSock]
    simp only [List.countP_append, (hloop P).1, (hloop P).2, (punchTrace_opens _ _).1,
      (punchTrace_opens _ _).2]
    simp [List.countP_cons, opensSock, closesSock]

theorem unwind_trace (ds : List Deferred) (o : Outcome) :
    (unwind ds o).1 = ds.map (fun d => match d with
      | Deferred.closeSock s err => Event.close s err
      | Deferred.clientClose => Event.clientClose) := by
  induction ds generalizing o with
  | nil => rfl
  | cons d ds ih =>
    cases d with
    | closeSock s err => simp [unwind, ih]
    | clientClose => simp [unwind, ih]

theorem unwind_not_running (ds : List Deferred) (o : Outcome) (h : o ≠ Outcome.running) :
    (unwind ds o).2 ≠ Outcome.running := by
  induction ds generalizing o with
  | nil => exact h
  | cons d ds ih =>
    cases d with
    | closeSock s err =>
      cases err with
      | none => exact ih o h
      | some e => exact ih (Outcome.panicked e) (by simp)
    | clientClose => exact ih o h

/-- The ways a session can go. -/
theorem session_shape (cfg : Config) (w : World) (fuel : Nat) :
    (∃ e, w.listenPacket 0 = Except.error e ∧
      session cfg w fuel = ⟨[Event.listenPacket Sock.conn (some e)], Outcome.panicked e⟩) ∨
    (∃ conn e, w.listenPacket 0 = Except.ok conn ∧
      w.newClient (clientConfig cfg) = Except.error e ∧
      (session cfg w fuel).trace =
        [Event.listenPacket Sock.conn none, Event.newClient (clientConfig cfg) (some e),
         Event.close Sock.conn conn.close] ∧
      (session cfg w fuel).outcome ≠ Outcome.running) ∨
    (∃ conn client e, w.listenPacket 0 = Except.ok conn ∧
      w.newClient (clientConfig cfg) = Except.ok client ∧ client.listen = some e ∧
      (session cfg w fuel).trace =
        [Event.listenPacket Sock.conn none, Event.newClient (clientConfig cfg) none,
         Event.clientListen (some e), Event.clientClose, Event.close Sock.conn conn.close] ∧
      (session cfg w fuel).outcome ≠ Outcome.running) ∨
    (∃ conn client e, w.listenPacket 0 = Except.ok conn ∧
      w.newClient (clientConfig cfg) = Except.ok client ∧ client.listen = none ∧
      client.allocate = Except.error e ∧
      (session cfg w fuel).trace =
        [Event.listenPacket Sock.conn none, Event.newClient (clientConfig cfg) none,
         Event.clientListen none, Event.allocate (some e), Event.clientClose,
         Event.close Sock.conn conn.close] ∧
      (session cfg w fuel).outcome ≠ Outcome.running) ∨
    (∃ conn client relayConn, w.listenPacket 0 = Except.ok conn ∧
      w.newClient (clientConfig cfg) = Except.ok client ∧ client.listen = none ∧
      client.allocate = Except.ok relayConn ∧
      (((doPingTest client relayConn cfg.packets w fuel).outcome = Outcome.running ∧
          session cfg w fuel =
            ⟨sessionHead cfg relayConn ++ (doPingTest client relayConn cfg.packets w fuel).trace,
              Outcome.running⟩) ∨
        (∃ e, (doPingTest client relayConn cfg.packets w fuel).outcome = Outcome.panicked e ∧
          (session cfg w fuel).trace =
            sessionHead cfg relayConn ++ (doPingTest client relayConn cfg.packets w fuel).trace ++
              sessionTail conn relayConn ∧
          (session cfg w fuel).outcome ≠ Outcome.running) ∨
        (∃ err, (doPingTest client relayConn cfg.packets w fuel).outcome =
            Outcome.returned err ∧
          (session cfg w fuel).trace =
            sessionHead cfg relayConn ++ (doPingTest client relayConn cfg.packets w fuel).trace ++
              Event.wgDone :: sessionTail conn relayConn ∧
          (session cfg w fuel).outcome ≠ Outcome.running))) := by
  cases h0 : w.listenPacket 0 with
  | error e => left; exact ⟨e, rfl, by simp [session, h0]⟩
  | ok conn =>
    right
    cases h1 : w.newClient (clientConfig cfg) with
    | error e =>
      left
      refine ⟨conn, e, rfl, rfl, ?_, ?_⟩
      · simp [session, h0, h1, finish, unwind_trace]
      · simp only [session, h0, h1, finish]
        exact unwind_not_running _ _ (by simp)
    | ok client =>
      right
      cases h2 : client.listen with
      | some e =>
        left
        refine ⟨conn, client, e, rfl, rfl, h2, ?_, ?_⟩
        · simp [session, h0, h1, h2, finish, unwind_trace]
        · simp only [session, h0, h1, h2, finish]
          exact unwind_not_running _ _ (by simp)
      | none =>
        right
        cases h3 : client.allocate with
        | error e =>
          left
          refine ⟨conn, client, e, rfl, rfl, h2, h3, ?_, ?_⟩
          · simp [session, h0, h1, h2, h3, finish, unwind_trace]
          · simp only [session, h0, h1, h2, h3, finish]
            exact unwind_not_running _ _ (by simp)
        | ok relayConn =>
          right
          refine ⟨conn, client, relayConn, rfl, rfl, h2, h3, ?_⟩
          cases h4 : (doPingTest client relayConn cfg.packets w fuel).outcome with
          | running => left; exact ⟨rfl, by simp [session, h0, h1, h2, h3, h4]⟩
          | panicked e =>
            right; left
            refine ⟨e, rfl, ?_, ?_⟩
            · simp [session, h0, h1, h2, h3, h4, finish, unwind_trace]
            · simp only [session, h0, h1, h2, h3, h4, finish]
              exact unwind_not_running _ _ (by simp)
          | returned err =>
            right; right
            refine ⟨err, rfl, ?_, ?_⟩
            · cases err <;> simp [session, h0, h1, h2, h3, h4, finish, unwind_trace]
            · cases err <;> simp only [session, h0, h1, h2, h3, h4, finish] <;>
                exact unwind_not_running _ _ (by simp)

theorem doPingTest_count_wg (client : Client) (R : PacketConn) (packets : Int) (w : World)
    (fuel : Nat) :
    (doPingTest client R packets w fuel).trace.count Event.wgAdd = 0 ∧
    (doPingTest client R packets w fuel).trace.count Event.wgDone = 0 := by
  constructor <;> rw [List.count_eq_zero] <;> intro h <;>
    have := doPingTest_mem client R packets w fuel _ h <;> cases this

/-- C1 (as amended): a session calls `wg.Add(1)` at most once and `wg.Done()`
at most as often as `wg.Add(1)`; when `doPingTest` is called and returns,
with an error or with nil, the session has called each exactly once; a
session that fails to open the local socket, to connect, to listen or to
allocate calls neither. -/
theorem session_counter_signals (cfg : Config) (w : World) (fuel : Nat) :
    (session cfg w fuel).trace.count Event.wgDone ≤
      (session cfg w fuel).trace.count Event.wgAdd ∧
    (session cfg w fuel).trace.count Event.wgAdd ≤ 1 ∧
    (∀ conn client relayConn err, w.listenPacket 0 = Except.ok conn →
      w.newClient (clientConfig cfg) = Except.ok client → client.listen = none →
      client.allocate = Except.ok relayConn →
      (doPingTest client relayConn cfg.packets w fuel).outcome = Outcome.returned err →
      (session cfg w fuel).trace.count Event.wgAdd = 1 ∧
      (session cfg w fuel).trace.count Event.wgDone = 1) ∧
    (∀ e, w.listenPacket 0 = Except.error e →
      (session cfg w fuel).trace.count Event.wgAdd = 0 ∧
      (session cfg w fuel).trace.count Event.wgDone = 0) ∧
    (∀ conn e, w.listenPacket 0 = Except.ok conn →
      w.newClient (clientConfig cfg) = Except.error e →
      (session cfg w fuel).trace.count Event.wgAdd = 0 ∧
      (session cfg w fuel).trace.count Event.wgDone = 0) ∧
    (∀ conn client e, w.listenPacket 0 = Except.ok conn →
      w.newClient (clientConfig cfg) = Except.ok client → client.listen = some e →
      (session cfg w fuel).trace.count Event.wgAdd = 0 ∧
      (session cfg w fuel).trace.count Event.wgDone = 0) ∧
    (∀ conn client e, w.listenPacket 0 = Except.ok conn →
      w.newClient (clientConfig cfg) = Except.ok client → client.listen = none →
      client.allocate = Except.error e →
      (session cfg w fuel).trace.count Event.wgAdd = 0 ∧
      (session cfg w fuel).trace.count Event.wgDone = 0) := by
  rcases session_shape cfg w fuel with
    ⟨e, h0, h⟩ | ⟨conn, e, h0, h1, h, -⟩ | ⟨conn, client, e, h0, h1, h2, h, -⟩ |
    ⟨conn, client, e, h0, h1, h2, h3, h, -⟩ |
    ⟨conn, client, relayConn, h0, h1, h2, h3, hp⟩
  · rw [h]
    refine ⟨by simp, by simp, ?_, ?_, ?_, ?_, ?_⟩ <;> intros <;> simp_all
  · rw [h]
    refine ⟨by simp, by simp, ?_, ?_, ?_, ?_, ?_⟩ <;> intros <;> simp_all
  · rw [h]
    refine ⟨by simp, by simp, ?_, ?_, ?_, ?_, ?_⟩ <;> intros <;> simp_all
  · rw [h]
    refine ⟨by simp, by simp, ?_, ?_, ?_, ?_, ?_⟩ <;> intros <;> simp_all
  · obtain ⟨ha, hd⟩ := doPingTest_count_wg client relayConn cfg.packets w fuel
    have hcount : (session cfg w fuel).trace.count Event.wgAdd = 1 ∧
        ((session cfg w fuel).trace.count Event.wgDone = 0 ∨
          ((session cfg w fuel).trace.count Event.wgDone = 1 ∧
            ∃ err, (doPingTest client relayConn cfg.packets w fuel).outcome =
              Outcome.returned err)) ∧
        ((∃ err, (doPingTest client relayConn cfg.packets w fuel).outcome =
              Outcome.returned err) → (session cfg w fuel).trace.count Event.wgDone = 1) := by
      rcases hp with ⟨ho, h⟩ | ⟨e, ho, h, -⟩ | ⟨err, ho, h, -⟩
      · rw [h]
        simp [List.count_append, ha, hd, List.count_cons, ho]
      · rw [h]
        simp [List.count_append, ha, hd, List.count_cons, ho]
      · rw [h]
        simp [List.count_append, ha, hd, List.count_cons, ho]
    obtain ⟨hA, hD, hR⟩ := hcount
    refine ⟨?_, by omega, ?_, ?_, ?_, ?_, ?_⟩
    · rcases hD with hD | ⟨hD, -⟩ <;> omega
    · intro conn' client' relayConn' err h0' h1' h2' h3' ho
      rw [h0] at h0'; cases h0'
      rw [h1] at h1'; cases h1'
      rw [h3] at h3'; cases h3'
      exact ⟨hA, hR ⟨err, ho⟩⟩
    · intro e h0'; rw [h0] at h0'; cases h0'
    · intro conn' e h0' h1'; rw [h1] at h1'; cases h1'
    · intro conn' client' e h0' h1' h2'
      rw [h1] at h1'; cases h1'
      rw [h2] at h2'; cases h2'
    · intro conn' client' e h0' h1' h2' h3'
      rw [h1] at h1'; cases h1'
      rw [h3] at h3'; cases h3'

theorem inPingTest_not_conn (ev : Event) (h : inPingTest ev = true) :
    opensSock Sock.conn ev = false ∧ closesSock Sock.conn ev = false ∧
    opensSock Sock.relayConn ev = false ∧ closesSock Sock.relayConn ev = false := by
  cases ev <;> simp_all [inPingTest, opensSock, closesSock]
  all_goals rename_i s _
  all_goals cases s <;> simp_all [inPingTest, opensSock, closesSock]
  all_goals rename_i err
  all_goals cases err <;> simp_all [inPingTest, opensSock, closesSock]

theorem doPingTest_other_socks (client : Client) (R : PacketConn) (packets : Int) (w : World)
    (fuel : Nat) :
    (doPingTest client R packets w fuel).trace.countP (opensSock Sock.conn) = 0 ∧
    (doPingTest client R packets w fuel).trace.countP (closesSock Sock.conn) = 0 ∧
    (doPingTest client R packets w fuel).trace.countP (opensSock Sock.relayConn) = 0 ∧
    (doPingTest client R packets w fuel).trace.countP (closesSock Sock.relayConn) = 0 :=
  ⟨doPingTest_countP_zero _ _ _ _ _ _ (fun ev h => (inPingTest_not_conn ev h).1),
   doPingTest_countP_zero _ _ _ _ _ _ (fun ev h => (inPingTest_not_conn ev h).2.1),
   doPingTest_countP_zero _ _ _ _ _ _ (fun ev h => (inPingTest_not_conn ev h).2.2.1),
   doPingTest_countP_zero _ _ _ _ _ _ (fun ev h => (inPingTest_not_conn ev h).2.2.2)⟩

/-- C6: when a session has ended, on whatever path, every socket was opened
at most once and closed exactly as often as it was opened, so a socket the
session opened was closed exactly once; in particular the local socket,
once opened, is closed exactly once (also when connect, listen or allocate
fails), and the relayed transport, once allocated, is closed exactly once
whatever `doPingTest` did.  When `doPingTest` has ended, the probe socket
was closed exactly once if it was opened. -/
theorem session_closes_sockets (cfg : Config) (w : World) (fuel : Nat)
    (hexit : (session cfg w fuel).outcome ≠ Outcome.running) :
    (∀ s, (session cfg w fuel).trace.countP (closesSock s) =
        (session cfg w fuel).trace.countP (opensSock s) ∧
      (session cfg w fuel).trace.countP (opensSock s) ≤ 1) ∧
    (∀ conn, w.listenPacket 0 = Except.ok conn →
      (session cfg w fuel).trace.countP (closesSock Sock.conn) = 1) ∧
    (Event.allocate none ∈ (session cfg w fuel).trace →
      (session cfg w fuel).trace.countP (closesSock Sock.relayConn) = 1) ∧
    (∀ (client : Client) (relayConn : PacketConn) (packets : Int),
      (doPingTest client relayConn packets w fuel).outcome ≠ Outcome.running →
      (doPingTest client relayConn packets w fuel).trace.countP (closesSock Sock.pingerConn) =
        (doPingTest client relayConn packets w fuel).trace.countP (opensSock Sock.pingerConn) ∧
      (doPingTest client relayConn packets w fuel).trace.countP
        (opensSock Sock.pingerConn) ≤ 1) := by
  refine ⟨?_, ?_, ?_, fun client relayConn packets h =>
    doPingTest_pinger_balance client relayConn packets w fuel h⟩
  · intro s
    rcases session_shape cfg w fuel with
      ⟨e, h0, h⟩ | ⟨conn, e, h0, h1, h, -⟩ | ⟨conn, client, e, h0, h1, h2, h, -⟩ |
      ⟨conn, client, e, h0, h1, h2, h3, h, -⟩ |
      ⟨conn, client, relayConn, h0, h1, h2, h3, hp⟩
    · rw [h]; cases s <;> simp [List.countP_cons, opensSock, closesSock]
    · rw [h]; cases s <;> simp [List.countP_cons, opensSock, closesSock]
    · rw [h]; cases s <;> simp [List.countP_cons, opensSock, closesSock]
    · rw [h]; cases s <;> simp [List.countP_cons, opensSock, closesSock]
    · obtain ⟨c1, c2, c3, c4⟩ := doPingTest_other_socks client relayConn cfg.packets w fuel
      rcases hp with ⟨ho, h⟩ | ⟨e, ho, h, -⟩ | ⟨err, ho, h, -⟩
      · rw [h] at hexit; exact absurd rfl hexit
      · obtain ⟨b1, b2⟩ := doPingTest_pinger_balance client relayConn cfg.packets w fuel
          (by rw [ho]; simp)
        rw [h]
        cases s <;>
          simp [List.countP_append, List.countP_cons, opensSock, closesSock, c1, c2, c3, c4,
            b1, b2]
      · obtain ⟨b1, b2⟩ := doPingTest_pinger_balance client relayConn cfg.packets w fuel
          (by rw [ho]; simp)
        rw [h]
        cases s <;>
          simp [List.countP_append, List.countP_cons, opensSock, closesSock, c1, c2, c3, c4,
            b1, b2]
  · intro conn0 hc
    rcases session_shape cfg w fuel with
      ⟨e, h0, h⟩ | ⟨conn, e, h0, h1, h, -⟩ | ⟨conn, client, e, h0, h1, h2, h, -⟩ |
      ⟨conn, client, e, h0, h1, h2, h3, h, -⟩ |
      ⟨conn, client, relayConn, h0, h1, h2, h3, hp⟩
    · rw [h0] at hc; cases hc
    · rw [h]; simp [List.countP_cons, closesSock]
    · rw [h]; simp [List.countP_cons, closesSock]
    · rw [h]; simp [List.countP_cons, closesSock]
    · obtain ⟨c1, c2, c3, c4⟩ := doPingTest_other_socks client relayConn cfg.packets w fuel
      rcases hp with ⟨ho, h⟩ | ⟨e, ho, h, -⟩ | ⟨err, ho, h, -⟩
      · rw [h] at hexit; exact absurd rfl hexit
      · rw [h]; simp [List.countP_append, List.countP_cons, closesSock, c2]
      · rw [h]; simp [List.countP_append, List.countP_cons, closesSock, c2]
  · intro hmem
    rcases session_shape cfg w fuel with
      ⟨e, h0, h⟩ | ⟨conn, e, h0, h1, h, -⟩ | ⟨conn, client, e, h0, h1, h2, h, -⟩ |
      ⟨conn, client, e, h0, h1, h2, h3, h, -⟩ |
      ⟨conn, client, relayConn, h0, h1, h2, h3, hp⟩
    · rw [h] at hmem; simp at hmem
    · rw [h] at hmem; simp at hmem
    · rw [h] at hmem; simp at hmem
    · rw [h] at hmem; simp at hmem
    · obtain ⟨c1, c2, c3, c4⟩ := doPingTest_other_socks client relayConn cfg.packets w fuel
      rcases hp with ⟨ho, h⟩ | ⟨e, ho, h, -⟩ | ⟨err, ho, h, -⟩
      · rw [h] at hexit; exact absurd rfl hexit
      · rw [h]; simp [List.countP_append, List.countP_cons, closesSock, c4]
      · rw [h]; simp [List.countP_append, List.countP_cons, closesSock, c4]

/-- C10: changing only the `duration` flag changes nothing in a session: with
the same sockets, relay client, clock and random source the session performs
the same actions and ends the same way, `doPingTest` being called with the
same arguments; and the whole process, under any schedule, passes through
the same states. -/
theorem session_ignores_duration (cfg : Config) (d : Int) (w : World) (fuel : Nat) :
    session { cfg with duration := d } w fuel = session cfg w fuel ∧
    (∀ (worlds : Nat → World) (schedule : List (Option Nat)),
      Proc.run { cfg with duration := d } worlds fuel schedule
          (Proc.init { cfg with duration := d }) =
        Proc.run cfg worlds fuel schedule (Proc.init cfg)) := by
  refine ⟨rfl, ?_⟩
  intro worlds schedule
  have hinit : Proc.init { cfg with duration := d } = Proc.init cfg := by
    simp only [Proc.init, main]
    split_ifs <;> rfl
  rw [hinit]
  generalize Proc.init cfg = p
  induction schedule generalizing p with
  | nil => rfl
  | cons who rest ih =>
    have hstep : Proc.step { cfg with duration := d } worlds fuel p who =
        Proc.step cfg worlds fuel p who := rfl
    simp only [Proc.run, hstep]
    cases Proc.step cfg worlds fuel p who with
    | none => rfl
    | some q => exact ih q

theorem len_eq_zero (s : String) : len s = 0 ↔ s = "" := by
  cases s with
  | mk cs =>
    simp only [len, String.utf8ByteSize_mk, String.utf8Len_eq_zero]
    constructor
    · intro h; rw [h]
    · intro h
      have := congrArg String.data h
      simpa using this

/-- C7: `main` exits through `log.Fatalf` exactly when `host`, `user` or
`password` is empty, with the diagnostic of the first empty one in that
order, and then no session is launched and the process takes no step;
otherwise it launches exactly `max(clients, 0)` sessions, numbered from 0. -/
theorem main_validation (cfg : Config) :
    main cfg =
      (if cfg.host = "" then Startup.fatal "'host' is required"
       else if cfg.user = "" then Startup.fatal "'user' is required"
       else if cfg.password = "" then Startup.fatal "'password' is required"
       else Startup.launched (runLine cfg) (List.range cfg.clients.toNat)) ∧
    ((∃ msg, main cfg = Startup.fatal msg) ↔
      (cfg.host = "" ∨ cfg.user = "" ∨ cfg.password = "")) ∧
    (((main cfg).sessionCount : Int) =
      if cfg.host = "" ∨ cfg.user = "" ∨ cfg.password = "" then 0 else max cfg.clients 0) ∧
    ((cfg.host = "" ∨ cfg.user = "" ∨ cfg.password = "") →
      (Proc.init cfg).threads = [] ∧
      ∀ (worlds : Nat → World) (fuel : Nat) (who : Option Nat),
        Proc.step cfg worlds fuel (Proc.init cfg) who = none) := by
  have hmain : main cfg =
      (if cfg.host = "" then Startup.fatal "'host' is required"
       else if cfg.user = "" then Startup.fatal "'user' is required"
       else if cfg.password = "" then Startup.fatal "'password' is required"
       else Startup.launched (runLine cfg) (List.range cfg.clients.toNat)) := by
    simp only [main, len_eq_zero]
  refine ⟨hmain, ?_, ?_, ?_⟩
  · rw [hmain]
    by_cases h1 : cfg.host = ""
    · simp [h1]
    · by_cases h2 : cfg.user = ""
      · simp [h1, h2]
      · by_cases h3 : cfg.password = "" <;> simp [h1, h2, h3]
  · rw [hmain]
    by_cases h1 : cfg.host = ""
    · simp [h1, Startup.sessionCount]
    · by_cases h2 : cfg.user = ""
      · simp [h1, h2, Startup.sessionCount]
      · by_cases h3 : cfg.password = ""
        · simp [h1, h2, h3, Startup.sessionCount]
        · simp [h1, h2, h3, Startup.sessionCount, Int.toNat_eq_max]
  · intro h
    have hfatal : ∃ msg, main cfg = Startup.fatal msg := by
      rw [hmain]
      by_cases h1 : cfg.host = ""
      · simp [h1]
      · by_cases h2 : cfg.user = ""
        · simp [h1, h2]
        · by_cases h3 : cfg.password = ""
          · simp [h1, h2, h3]
          · simp [h1, h2, h3] at h
    obtain ⟨msg, hmsg⟩ := hfatal
    have hinit : Proc.init cfg = ⟨0, MainPc.exited, [], false⟩ := by
      simp [Proc.init, hmsg]
    rw [hinit]
    refine ⟨rfl, ?_⟩
    intro worlds fuel who
    cases who with
    | none => rfl
    | some i => simp [Proc.step, Proc.stepSession]

theorem readInto_fst (r : ReadResult) (buf : Bytes) (hb : buf.length = 1600) :
    (readInto r buf).1 = min r.data.length 1600 := by
  simp [readInto, hb]

theorem readInto_length (r : ReadResult) (buf : Bytes) (hb : buf.length = 1600) :
    (readInto r buf).2.length = 1600 := by
  simp only [readInto, hb, List.length_append, List.length_take, List.length_drop]
  omega

theorem readInto_take (r : ReadResult) (buf : Bytes) (hb : buf.length = 1600) :
    (readInto r buf).2.take (readInto r buf).1 = r.data.take 1600 := by
  simp only [readInto, hb]
  rw [List.take_append_of_le_length (by simp)]
  rw [List.take_take]
  by_cases h : r.data.length ≤ 1600
  · rw [min_eq_left h, min_self, List.take_of_length_le (le_refl _), List.take_of_length_le h]
  · have h' : 1600 ≤ r.data.length := by omega
    rw [min_eq_right h', min_self]

theorem relayReadLoop_echo_at (R : PacketConn) :
    ∀ (fuel i0 : Nat) (buf : Bytes), buf.length = 1600 →
      ∀ i, i < fuel → (∀ j, j < i → roundOk R (i0 + j)) →
        (R.readFrom (i0 + i)).err = none → (R.readFrom (i0 + i)).data.length ≤ 1600 →
        (relayReadLoop R fuel i0 buf).trace[2 * i]? =
          some (Event.readFrom Sock.relayConn (R.readFrom (i0 + i)).data.length
            (R.readFrom (i0 + i)).sender none) ∧
        (relayReadLoop R fuel i0 buf).trace[2 * i + 1]? =
          some (Event.writeTo Sock.relayConn (R.readFrom (i0 + i)).data
            (R.readFrom (i0 + i)).sender (R.writeTo (i0 + i))) := by
  intro fuel
  induction fuel with
  | zero => intro i0 buf _ i hi; omega
  | succ fuel ih =>
    intro i0 buf hb i hi hok hr hL
    cases i with
    | zero =>
      simp only [Nat.add_zero] at hr hL ⊢
      have h1 := readInto_fst (R.readFrom i0) buf hb
      have h2 := readInto_take (R.readFrom i0) buf hb
      rw [min_eq_left hL] at h1
      rw [List.take_of_length_le hL, h1] at h2
      cases hw : R.writeTo i0 with
      | some e => simp [relayReadLoop, hr, hw, h1, h2]
      | none => simp [relayReadLoop, hr, hw, h1, h2]
    | succ i =>
      obtain ⟨hr0, hw0⟩ := hok 0 (by omega)
      simp only [Nat.add_zero] at hr0 hw0
      have := ih (i0 + 1) (readInto (R.readFrom i0) buf).2
        (readInto_length _ _ hb) i (by omega)
        (fun j hj => by
          have := hok (j + 1) (by omega)
          rwa [show i0 + (j + 1) = i0 + 1 + j by omega] at this)
        (by rwa [show i0 + 1 + i = i0 + (i + 1) by omega])
        (by rwa [show i0 + 1 + i = i0 + (i + 1) by omega])
      rw [show i0 + 1 + i = i0 + (i + 1) by omega] at this
      simp only [relayReadLoop, hr0, hw0]
      rw [show 2 * (i + 1) = 2 * i + 1 + 1 by omega]
      simpa using this

theorem relayReadLoop_writes (R : PacketConn) :
    ∀ (fuel i0 : Nat) (buf : Bytes), buf.length = 1600 →
      ∀ k s p a e, (relayReadLoop R fuel i0 buf).trace[k]? = some (Event.writeTo s p a e) →
        s = Sock.relayConn ∧ ∃ i, k = 2 * i + 1 ∧
          (relayReadLoop R fuel i0 buf).trace[2 * i]? =
            some (Event.readFrom Sock.relayConn p.length a none) ∧
          a = (R.readFrom (i0 + i)).sender ∧ p = (R.readFrom (i0 + i)).data.take 1600 ∧
          e = R.writeTo (i0 + i) := by
  intro fuel
  induction fuel with
  | zero => intro i0 buf _ k s p a e h; simp [relayReadLoop] at h
  | succ fuel ih =>
    intro i0 buf hb k s p a e h
    have h1 := readInto_fst (R.readFrom i0) buf hb
    have h2 := readInto_take (R.readFrom i0) buf hb
    have hlen : ((R.readFrom i0).data.take 1600).length = min (R.readFrom i0).data.length 1600 := by
      rw [List.length_take, min_comm]
    cases hr : (R.readFrom i0).err with
    | some e0 =>
      simp only [relayReadLoop, hr] at h
      cases k with
      | zero => simp at h
      | succ k => simp at h
    | none =>
      cases hw : R.writeTo i0 with
      | some e0 =>
        simp only [relayReadLoop, hr, hw] at h ⊢
        match k, h with
        | 0, h => simp at h
        | 1, h =>
          simp only [List.getElem?_cons_succ, List.getElem?_cons_zero, Option.some.injEq,
            Event.writeTo.injEq] at h
          obtain ⟨hs, hp, ha, he⟩ := h
          refine ⟨hs.symm, 0, rfl, ?_, ha.symm, ?_, ?_⟩
          · rw [← hp, h2, hlen, h1, ← ha]; rfl
          · rw [← hp, h2]; rfl
          · rw [← he, Nat.add_zero, hw]
        | k + 2, h => simp at h
      | none =>
        simp only [relayReadLoop, hr, hw] at h ⊢
        match k, h with
        | 0, h => simp at h
        | 1, h =>
          simp only [List.getElem?_cons_succ, List.getElem?_cons_zero, Option.some.injEq,
            Event.writeTo.injEq] at h
          obtain ⟨hs, hp, ha, he⟩ := h
          refine ⟨hs.symm, 0, rfl, ?_, ha.symm, ?_, ?_⟩
          · rw [← hp, h2, hlen, h1, ← ha]; rfl
          · rw [← hp, h2]; rfl
          · rw [← he, Nat.add_zero, hw]
        | k + 2, h =>
          simp only [List.getElem?_cons_succ] at h
          obtain ⟨hs, i, hk, hrd, ha, hp, he⟩ :=
            ih (i0 + 1) (readInto (R.readFrom i0) buf).2 (readInto_length _ _ hb) k s p a e h
          refine ⟨hs, i + 1, by omega, ?_, ?_, ?_, ?_⟩
          · rw [show 2 * (i + 1) = 2 * i + 1 + 1 by omega]
            simpa using hrd
          · rw [ha, show i0 + 1 + i = i0 + (i + 1) by omega]
          · rw [hp, show i0 + 1 + i = i0 + (i + 1) by omega]
          · rw [he, show i0 + 1 + i = i0 + (i + 1) by omega]

theorem relayReadLoop_stops (R : PacketConn) :
    ∀ (fuel i0 : Nat) (buf : Bytes) (i : Nat), i < fuel →
      (∀ j, j < i → roundOk R (i0 + j)) →
      (((R.readFrom (i0 + i)).err ≠ none →
        (relayReadLoop R fuel i0 buf).trace.length = 2 * i + 1 ∧
        (relayReadLoop R fuel i0 buf).outcome = Outcome.returned none) ∧
      ((R.readFrom (i0 + i)).err = none → R.writeTo (i0 + i) ≠ none →
        (relayReadLoop R fuel i0 buf).trace.length = 2 * i + 2 ∧
        (relayReadLoop R fuel i0 buf).outcome = Outcome.returned none)) := by
  intro fuel
  induction fuel with
  | zero => intro i0 buf i hi; omega
  | succ fuel ih =>
    intro i0 buf i hi hok
    cases i with
    | zero =>
      simp only [Nat.add_zero]
      constructor
      · intro hr
        cases hr' : (R.readFrom i0).err with
        | none => exact absurd hr' hr
        | some e => simp [relayReadLoop, hr']
      · intro hr hw
        cases hw' : R.writeTo i0 with
        | none => exact absurd hw' hw
        | some e => simp [relayReadLoop, hr, hw']
    | succ i =>
      obtain ⟨hr0, hw0⟩ := hok 0 (by omega)
      simp only [Nat.add_zero] at hr0 hw0
      have := ih (i0 + 1) (readInto (R.readFrom i0) buf).2 i (by omega)
        (fun j hj => by
          have := hok (j + 1) (by omega)
          rwa [show i0 + (j + 1) = i0 + 1 + j by omega] at this)
      rw [show i0 + 1 + i = i0 + (i + 1) by omega] at this
      simp only [relayReadLoop, hr0, hw0, List.length_cons]
      obtain ⟨t1, t2⟩ := this
      constructor
      · intro hr
        obtain ⟨a, b⟩ := t1 hr
        exact ⟨by omega, b⟩
      · intro hr hw
        obtain ⟨a, b⟩ := t2 hr hw
        exact ⟨by omega, b⟩

/-- C8: in the read loop on the relayed transport, as long as every earlier
read and write succeeded, the datagram of length `L <= 1600` that read `i`
delivers from sender `A` is followed at once by a write to `A` of exactly
the `L` received bytes; every write the loop issues is such an echo, on the
relayed transport, directly after the successful read whose sender and
bytes (cut to the 1600-byte buffer) it carries; and the loop ends with the
first read that fails, before any write, or with the first write that
fails. -/
theorem relayReader_echoes (relayConn : PacketConn) (fuel : Nat) :
    (∀ i, i < fuel → (∀ j, j < i → roundOk relayConn j) →
      (relayConn.readFrom i).err = none → (relayConn.readFrom i).data.length ≤ 1600 →
      (relayReader relayConn fuel).trace[2 * i]? =
        some (Event.readFrom Sock.relayConn (relayConn.readFrom i).data.length
          (relayConn.readFrom i).sender none) ∧
      (relayReader relayConn fuel).trace[2 * i + 1]? =
        some (Event.writeTo Sock.relayConn (relayConn.readFrom i).data
          (relayConn.readFrom i).sender (relayConn.writeTo i))) ∧
    (∀ k s p a e, (relayReader relayConn fuel).trace[k]? = some (Event.writeTo s p a e) →
      s = Sock.relayConn ∧ ∃ i, k = 2 * i + 1 ∧
        (relayReader relayConn fuel).trace[2 * i]? =
          some (Event.readFrom Sock.relayConn p.length a none) ∧
        a = (relayConn.readFrom i).sender ∧ p = (relayConn.readFrom i).data.take 1600 ∧
        e = relayConn.writeTo i) ∧
    (∀ i, i < fuel → (∀ j, j < i → roundOk relayConn j) →
      (relayConn.readFrom i).err ≠ none →
      (relayReader relayConn fuel).trace.length = 2 * i + 1 ∧
      (relayReader relayConn fuel).outcome = Outcome.returned none) ∧
    (∀ i, i < fuel → (∀ j, j < i → roundOk relayConn j) →
      (relayConn.readFrom i).err = none → relayConn.writeTo i ≠ none →
      (relayReader relayConn fuel).trace.length = 2 * i + 2 ∧
      (relayReader relayConn fuel).outcome = Outcome.returned none) := by
  have hb : (List.replicate 1600 (0 : UInt8)).length = 1600 := List.length_replicate _ _
  have hshift : ∀ i, (∀ j, j < i → roundOk relayConn j) →
      ∀ j, j < i → roundOk relayConn (0 + j) := by
    intro i hok j hj
    rw [Nat.zero_add]
    exact hok j hj
  refine ⟨?_, ?_, ?_, ?_⟩
  · intro i hi hok hr hL
    have := relayReadLoop_echo_at relayConn fuel 0 _ hb i hi (hshift i hok)
      (by rw [Nat.zero_add]; exact hr) (by rw [Nat.zero_add]; exact hL)
    rw [Nat.zero_add] at this
    exact this
  · intro k s p a e h
    obtain ⟨hs, i, hk, h1, h2, h3, h4⟩ := relayReadLoop_writes relayConn fuel 0 _ hb k s p a e h
    rw [Nat.zero_add] at h2 h3 h4
    exact ⟨hs, i, hk, h1, h2, h3, h4⟩
  · intro i hi hok hr
    exact (relayReadLoop_stops relayConn fuel 0 (List.replicate 1600 0) i hi
      (hshift i hok)).1 (by rw [Nat.zero_add]; exact hr)
  · intro i hi hok hr hw
    exact (relayReadLoop_stops relayConn fuel 0 (List.replicate 1600 0) i hi
      (hshift i hok)).2 (by rw [Nat.zero_add]; exact hr) (by rw [Nat.zero_add]; exact hw)

/-- C1, counterexample: a session whose `client.Allocate()` fails ends in a
panic having called neither `wg.Add(1)` nor `wg.Done()`. -/
theorem session_allocate_failure_no_signal :
    Event.allocate (some "allocate failed") ∈ (session sampleConfig allocFailWorld 5).trace ∧
    (session sampleConfig allocFailWorld 5).outcome = Outcome.panicked "allocate failed" ∧
    (session sampleConfig allocFailWorld 5).trace.count Event.wgAdd = 0 ∧
    (session sampleConfig allocFailWorld 5).trace.count Event.wgDone = 0 := by
  decide

/-- C1, witness: a session in which every call succeeds calls `wg.Add(1)` once and
`wg.Done()` once. -/
theorem session_counter_signals_witness :
    (doPingTest okClient sampleRelay sampleConfig.packets (okWorld 1) 5).outcome =
      Outcome.returned none ∧
    (session sampleConfig (okWorld 1) 5).trace.count Event.wgAdd = 1 ∧
    (session sampleConfig (okWorld 1) 5).trace.count Event.wgDone = 1 :=
  ⟨by decide, (session_counter_signals sampleConfig (okWorld 1) 5).2.2.1
    (okConn "local:0" [] "") okClient sampleRelay none rfl rfl rfl rfl (by decide)⟩

/-- When the session has executed `wg.Add(1)` before `main` reaches
`wg.Wait()`, `main` cannot pass it until the session executes `wg.Done()`. -/
theorem wait_blocks_after_add :
    Proc.run sampleConfig (fun _ => okWorld 1) 5
        [none, some 0, some 0, some 0, some 0, some 0, some 0, none, none]
        (Proc.init sampleConfig) = none ∧
    (Proc.run sampleConfig (fun _ => okWorld 1) 5
        [none, some 0, some 0, some 0, some 0, some 0, some 0, none]
        (Proc.init sampleConfig)).map Proc.counter = some 1 := by
  decide

/-- C3, witness: two packets per batch, the clock passing the ceiling at the second check:
no send fails, two batches complete, and the payload sends are the expected four. -/
theorem doPingTest_payload_sends_witness :
    (∀ ev ∈ (doPingTest okClient sampleRelay 2 (okWorld 1) 5).trace, isFailedSend ev = false) ∧
    batches (doPingTest okClient sampleRelay 2 (okWorld 1) 5).trace = 2 ∧
    (doPingTest okClient sampleRelay 2 (okWorld 1) 5).trace.filter isPayloadSend =
      List.replicate ((2 : Int).toNat * batches (doPingTest okClient sampleRelay 2 (okWorld 1) 5).trace)
        (Event.writeTo Sock.pingerConn (GenRandomBytes (okWorld 1).randRead 1000)
          sampleRelay.localAddr none) :=
  ⟨by decide, by decide,
    (doPingTest_payload_sends okClient sampleRelay 2 (okWorld 1) 5).2.2.2.2.2.2 (by decide)⟩

/-- C4, counterexample: the third payload send fails with "send failed" and
the deferred close of the probe socket fails with "close failed";
`doPingTest` then does not return the send error, it panics with the close
error. -/
theorem doPingTest_send_error_close_panics :
    (doPingTest okClient sampleRelay 2 (sendFailWorld 2 (some "close failed")) 5).trace.filter
        isFailedSend =
      [Event.writeTo Sock.pingerConn
        (GenRandomBytes (sendFailWorld 2 (some "close failed")).randRead 1000) "relay:1"
        (some "send failed")] ∧
    (doPingTest okClient sampleRelay 2 (sendFailWorld 2 (some "close failed")) 5).outcome =
      Outcome.panicked "close failed" ∧
    (doPingTest okClient sampleRelay 2 (sendFailWorld 2 (some "close failed")) 5).outcome ≠
      Outcome.returned (some "send failed") :=
  ⟨rfl, by decide, by decide⟩

/-- C4, witness: the third payload send fails and the probe socket closes cleanly:
the failed send is followed by the close alone and `doPingTest` returns the send error. -/
theorem doPingTest_send_error_witness :
    (doPingTest okClient sampleRelay 2 (sendFailWorld 2 none) 5).trace =
      (punchTrace "mapped:7" none ++
        [sendEv (GenRandomBytes (sendFailWorld 2 none).randRead 1000) "relay:1" none,
         sendEv (GenRandomBytes (sendFailWorld 2 none).randRead 1000) "relay:1" none,
         Event.sleep millisecond, Event.timeSince 1000000]) ++
      Event.writeTo Sock.pingerConn (GenRandomBytes (sendFailWorld 2 none).randRead 1000)
          "relay:1" (some "send failed") ::
        [Event.close Sock.pingerConn none] ∧
    ∃ closeErr, [Event.close Sock.pingerConn none] = [Event.close Sock.pingerConn closeErr] ∧
      (doPingTest okClient sampleRelay 2 (sendFailWorld 2 none) 5).outcome =
        match closeErr with
        | none => Outcome.returned (some "send failed")
        | some c => Outcome.panicked c :=
  ⟨rfl, ((doPingTest_send_error okClient sampleRelay 2 (sendFailWorld 2 none) 5).2.1
    (punchTrace "mapped:7" none ++
        [sendEv (GenRandomBytes (sendFailWorld 2 none).randRead 1000) "relay:1" none,
         sendEv (GenRandomBytes (sendFailWorld 2 none).randRead 1000) "relay:1" none,
         Event.sleep millisecond, Event.timeSince 1000000])
    (GenRandomBytes (sendFailWorld 2 none).randRead 1000) "relay:1" "send failed"
    [Event.close Sock.pingerConn none] rfl).2⟩

/-- C5, witness: with a clock that advances exactly 1 millisecond per batch the loop
returns nil within 600001 batches. -/
theorem trafficLoop_terminates_witness :
    (∀ k, (okConn "probe:0" [] "").writeTo k = none) ∧
    millisecond ≤ tickWorld.since 0 ∧
    (∀ k, tickWorld.since k + millisecond ≤ tickWorld.since (k + 1)) ∧
    ∃ n, 1 ≤ n ∧ n ≤ 600001 ∧
      (trafficLoop tickWorld (okConn "probe:0" [] "") sampleRelay 2 [] n 0 0).outcome =
        Outcome.returned none ∧
      minute * 10 < tickWorld.since (n - 1) :=
  have h1 : ∀ k, (okConn "probe:0" [] "").writeTo k = none := fun _ => rfl
  have h2 : millisecond ≤ tickWorld.since 0 := by decide
  have h3 : ∀ k, tickWorld.since k + millisecond ≤ tickWorld.since (k + 1) := by
    intro k
    simp only [tickWorld, millisecond]
    push_cast
    linarith
  ⟨h1, h2, h3,
    match trafficLoop_terminates tickWorld (okConn "probe:0" [] "") sampleRelay 2 [] h1 h2 h3 with
    | ⟨n, hn1, hn2, hrun, _, hgt, _⟩ => ⟨n, hn1, hn2, (hrun n (le_refl n)).1, hgt⟩⟩

/-- C6, witness: a session in which every call succeeds closes each of its sockets once. -/
theorem session_closes_sockets_witness :
    (session sampleConfig (okWorld 1) 5).outcome ≠ Outcome.running ∧
    (session sampleConfig (okWorld 1) 5).trace.countP (closesSock Sock.conn) = 1 ∧
    (session sampleConfig (okWorld 1) 5).trace.countP (closesSock Sock.relayConn) = 1 ∧
    (session sampleConfig (okWorld 1) 5).trace.countP (closesSock Sock.pingerConn) =
      (session sampleConfig (okWorld 1) 5).trace.countP (opensSock Sock.pingerConn) :=
  ⟨by decide,
    (session_closes_sockets sampleConfig (okWorld 1) 5 (by decide)).2.1 _ rfl,
    (session_closes_sockets sampleConfig (okWorld 1) 5 (by decide)).2.2.1 (by decide),
    ((session_closes_sockets sampleConfig (okWorld 1) 5 (by decide)).1 Sock.pingerConn).1⟩

/-- C7, witness: with an empty `user` the configuration is rejected and nothing is launched. -/
theorem main_validation_witness :
    ({ sampleConfig with user := "" } : Config).host ≠ "" ∧
    (∃ msg, main { sampleConfig with user := "" } = Startup.fatal msg) ∧
    (Proc.init { sampleConfig with user := "" }).threads = [] :=
  ⟨by decide,
    (main_validation { sampleConfig with user := "" }).2.1.mpr (Or.inr (Or.inl rfl)),
    ((main_validation { sampleConfig with user := "" }).2.2.2 (Or.inr (Or.inl rfl))).1⟩

/-- C8, witness: the second datagram, three bytes from "peer:9", is echoed unchanged. -/
theorem relayReader_echoes_witness :
    (sampleRelay.readFrom 1).err = none ∧ (sampleRelay.readFrom 1).data.length ≤ 1600 ∧
    (relayReader sampleRelay 3).trace[2 * 1]? =
      some (Event.readFrom Sock.relayConn 3 "peer:9" none) ∧
    (relayReader sampleRelay 3).trace[2 * 1 + 1]? =
      some (Event.writeTo Sock.relayConn [1, 2, 3] "peer:9" none) :=
  ⟨rfl, by decide,
    (relayReader_echoes sampleRelay 3).1 1 (by decide) (fun _ _ => ⟨rfl, rfl⟩) rfl (by decide)⟩

/-- C9, witness: before the first payload send of a successful run the relayed transport
has written "Hello" twice to the mapped address, and it writes nothing afterwards. -/
theorem doPingTest_hole_punch_first_witness :
    isPayloadSend (sendEv (GenRandomBytes (okWorld 1).randRead 1000) "relay:1" none) = true ∧
    ∃ mapped e1, okClient.sendBindingRequest = Except.ok mapped ∧ hello.length = 5 ∧
      (punchTrace "mapped:7" none).filter isRelayWrite =
        [Event.writeTo Sock.relayConn hello mapped e1,
         Event.writeTo Sock.relayConn hello mapped none] ∧
      ([sendEv (GenRandomBytes (okWorld 1).randRead 1000) "relay:1" none,
        Event.sleep millisecond, Event.timeSince 1000000,
        sendEv (GenRandomBytes (okWorld 1).randRead 1000) "relay:1" none,
        sendEv (GenRandomBytes (okWorld 1).randRead 1000) "relay:1" none,
        Event.sleep millisecond, Event.timeSince (minute * 10 + 1),
        Event.close Sock.pingerConn none] : List Event).filter isRelayWrite = [] :=
  ⟨rfl, doPingTest_hole_punch_first okClient sampleRelay 2 (okWorld 1) 5
    (punchTrace "mapped:7" none)
    (sendEv (GenRandomBytes (okWorld 1).randRead 1000) "relay:1" none) _ rfl rfl⟩

theorem run_launch_all (cfg : Config) (worlds : Nat → World) (fuel : Nat) :
    ∀ (l : List Nat) (ts : List Thread) (rest : List (Option Nat)),
      Proc.run cfg worlds fuel (List.replicate l.length none ++ rest)
          ⟨0, MainPc.launching l, ts, false⟩ =
        Proc.run cfg worlds fuel rest
          ⟨0, MainPc.launching [], ts ++ l.map (freshThread cfg worlds fuel), false⟩ := by
  intro l
  induction l with
  | nil => intro ts rest; simp
  | cons i l ih =>
    intro ts rest
    have := ih (ts ++ [freshThread cfg worlds fuel i]) rest
    simp only [List.length_cons, List.replicate_succ, List.cons_append, Proc.run, Proc.step,
      Proc.stepMain, List.map_cons]
    simp only [List.append_assoc, List.singleton_append] at this
    simpa using this

theorem signaled_fresh (p : Proc) (h : ∀ t ∈ p.threads, t.executed = []) (i : Nat) :
    p.signaled i = false := by
  unfold Proc.signaled
  cases ht : p.threads.get? i with
  | none => rfl
  | some t =>
    have hmem : t ∈ p.threads := List.get?_mem ht
    simp [h t hmem]

/-- C2: for every accepted configuration with at least one client and every
environment, `main` can launch all `clients` sessions, reach `wg.Wait()`
while the counter is still zero and pass it: `main` has returned, the
process has ended, and no launched session has executed anything, so none
has signaled. -/
theorem wait_returns_before_session_signals (cfg : Config) (worlds : Nat → World) (fuel : Nat)
    (hhost : cfg.host ≠ "") (huser : cfg.user ≠ "") (hpassword : cfg.password ≠ "")
    (hclients : 1 ≤ cfg.clients) :
    ∃ p, Proc.run cfg worlds fuel (List.replicate (cfg.clients.toNat + 2) none)
        (Proc.init cfg) = some p ∧
      p.mainPc = MainPc.returned ∧ 1 ≤ p.threads.length ∧
      p.threads.length = cfg.clients.toNat ∧ p.counter = 0 ∧
      (∀ t ∈ p.threads, t.executed = []) ∧
      (∀ i, p.signaled i = false) ∧
      ∀ who, Proc.step cfg worlds fuel p who = none := by
  have hinit : Proc.init cfg = ⟨0, MainPc.launching (List.range cfg.clients.toNat), [], false⟩ := by
    simp [Proc.init, main, len_eq_zero, hhost, huser, hpassword]
  have hlen : (List.range cfg.clients.toNat).length = cfg.clients.toNat := List.length_range _
  have hrun := run_launch_all cfg worlds fuel (List.range cfg.clients.toNat) [] [none, none]
  rw [hlen] at hrun
  have hsplit : List.replicate (cfg.clients.toNat + 2) (none : Option Nat) =
      List.replicate cfg.clients.toNat none ++ [none, none] := by
    rw [List.replicate_add]; rfl
  have hfresh : ∀ t ∈ (List.range cfg.clients.toNat).map (freshThread cfg worlds fuel),
      t.executed = [] := by
    intro t ht
    obtain ⟨i, -, rfl⟩ := List.mem_map.mp ht
    rfl
  refine ⟨⟨0, MainPc.returned, (List.range cfg.clients.toNat).map (freshThread cfg worlds fuel),
    false⟩, ?_, rfl, ?_, ?_, rfl, hfresh, ?_, ?_⟩
  · rw [hinit, hsplit, hrun]
    simp [Proc.run, Proc.step, Proc.stepMain]
  · simp only [List.length_map, List.length_range]
    omega
  · simp
  · intro i
    exact signaled_fresh _ hfresh i
  · intro who
    simp [Proc.step]

/-- C2, failing input: one client, every call succeeding; after three steps
of `main` the process has ended with the counter at zero and the one
launched session not signaled. -/
theorem wait_returns_before_session_signals_witness :
    sampleConfig.host ≠ "" ∧ sampleConfig.user ≠ "" ∧ sampleConfig.password ≠ "" ∧
    1 ≤ sampleConfig.clients ∧
    ∃ p, Proc.run sampleConfig (fun _ => okWorld 1) 5 [none, none, none]
        (Proc.init sampleConfig) = some p ∧
      p.mainPc = MainPc.returned ∧ 1 ≤ p.threads.length ∧
      p.threads.length = sampleConfig.clients.toNat ∧ p.counter = 0 ∧
      (∀ t ∈ p.threads, t.executed = []) ∧
      (∀ i, p.signaled i = false) ∧
      ∀ who, Proc.step sampleConfig (fun _ => okWorld 1) 5 p who = none :=
  ⟨by decide, by decide, by decide, by decide,
    wait_returns_before_session_signals sampleConfig (fun _ => okWorld 1) 5
      (by decide) (by decide) (by decide) (by decide)⟩

end TurnBench
